import Mathlib

set_option linter.dupNamespace false
set_option maxRecDepth 100000

/-!
# austenstone/actions: the demo CLI tool and the demo microservice

A shallow embedding of `src/cli-tool/main.go` and `src/microservice/main.go`.

* Go strings are byte sequences (`GoString`); `len` is `List.length`.
* Go's `int` is modelled by `Int`; the only integer loop (`repeat`) counts
  upwards from 0 to a bound that is itself an `int`, so it cannot overflow.
* The process environment, the clock reading, the link-time variables and
  the runtime constants are explicit arguments.
* The parts of the Go standard library the programs call (`unicode/utf8`,
  `encoding/json`, `net/http`) and of `gorilla/mux` are modelled as far as
  the programs use them; each such definition says so.
-/

/-! ## Go strings and UTF-8 -/

/-- A Go string: an immutable sequence of bytes, not necessarily valid UTF-8. -/
abbrev GoString := List Nat

/-- Every element is a byte. -/
def isBytes (s : GoString) : Bool := s.all (fun b => decide (b < 256))

/-- The constant `utf8.RuneError` (U+FFFD). -/
def RuneError : Nat := 0xFFFD

/-- Go library `utf8.EncodeRune`: the UTF-8 encoding of rune `r`; surrogates
and values above U+10FFFF are encoded as U+FFFD. Shifts and masks are
written as division and remainder. -/
def encodeRune (r : Nat) : GoString :=
  if r ≤ 0x7F then [r]
  else if r ≤ 0x7FF then [0xC0 + r / 64, 0x80 + r % 64]
  else if 0x10FFFF < r ∨ (0xD800 ≤ r ∧ r ≤ 0xDFFF) then [0xEF, 0xBF, 0xBD]
  else if r ≤ 0xFFFF then [0xE0 + r / 4096, 0x80 + r / 64 % 64, 0x80 + r % 64]
  else [0xF0 + r / 262144, 0x80 + r / 4096 % 64, 0x80 + r / 64 % 64, 0x80 + r % 64]

/-- A string literal of the Go source: the UTF-8 bytes of its text. -/
def str (s : String) : GoString := s.toList.flatMap (fun c => encodeRune c.toNat)

/-- Continuation byte test (`locb <= b <= hicb`). -/
def isCont (b : Nat) : Bool := 0x80 ≤ b && b ≤ 0xBF

/-- Go library `utf8.DecodeRune`: the first rune of `p` and its width in
bytes; `(RuneError, 0)` on empty input and `(RuneError, 1)` on an invalid or
truncated encoding. The lookup tables `first` and `acceptRanges` are
written out as the byte ranges they encode. -/
def decodeRune (p : GoString) : Nat × Nat :=
  match p with
  | [] => (RuneError, 0)
  | p0 :: t =>
    if p0 < 0x80 then (p0, 1)
    else if p0 < 0xC2 ∨ 0xF4 < p0 then (RuneError, 1)
    else
      match t with
      | [] => (RuneError, 1)
      | b1 :: t1 =>
        -- acceptRanges: the second byte is restricted after E0, ED, F0, F4
        let lo := if p0 = 0xE0 then 0xA0 else if p0 = 0xF0 then 0x90 else 0x80
        let hi := if p0 = 0xED then 0x9F else if p0 = 0xF4 then 0x8F else 0xBF
        if b1 < lo ∨ hi < b1 then (RuneError, 1)
        else if p0 < 0xE0 then ((p0 % 32) * 64 + b1 % 64, 2)
        else
          match t1 with
          | [] => (RuneError, 1)
          | b2 :: t2 =>
            if !isCont b2 then (RuneError, 1)
            else if p0 < 0xF0 then ((p0 % 16) * 4096 + (b1 % 64) * 64 + b2 % 64, 3)
            else
              match t2 with
              | [] => (RuneError, 1)
              | b3 :: _ =>
                if !isCont b3 then (RuneError, 1)
                else ((p0 % 8) * 262144 + (b1 % 64) * 4096 + (b2 % 64) * 64 + b3 % 64, 4)

/-- Go library `utf8.Valid`: the bytes are a sequence of well-formed UTF-8
encodings (shortest form, no surrogates, at most U+10FFFF). -/
def validUTF8 : GoString → Bool
  | [] => true
  | b0 :: t =>
    if b0 < 0x80 then validUTF8 t
    else
      match t with
      | [] => false
      | b1 :: t1 =>
        if 0xC2 ≤ b0 ∧ b0 ≤ 0xDF then isCont b1 && validUTF8 t1
        else
          match t1 with
          | [] => false
          | b2 :: t2 =>
            if 0xE0 ≤ b0 ∧ b0 ≤ 0xEF then
              decide ((if b0 = 0xE0 then 0xA0 else 0x80) ≤ b1) &&
                decide (b1 ≤ (if b0 = 0xED then 0x9F else 0xBF)) && isCont b2 && validUTF8 t2
            else
              match t2 with
              | [] => false
              | b3 :: t3 =>
                decide (0xF0 ≤ b0) && decide (b0 ≤ 0xF4) &&
                  decide ((if b0 = 0xF0 then 0x90 else 0x80) ≤ b1) &&
                  decide (b1 ≤ (if b0 = 0xF4 then 0x8F else 0xBF)) &&
                  isCont b2 && isCont b3 && validUTF8 t3

/-- Byte-wise lexicographic order on strings (Go's `<` on strings). -/
def strLt : GoString → GoString → Bool
  | [], [] => false
  | [], _ :: _ => true
  | _ :: _, [] => false
  | a :: s, b :: t => if a < b then true else if b < a then false else strLt s t

/-- Insert a member into a key-sorted member list. -/
def insertByKey {α : Type} (p : GoString × α) : List (GoString × α) → List (GoString × α)
  | [] => [p]
  | q :: rest => if strLt q.1 p.1 then q :: insertByKey p rest else p :: q :: rest

/-- The members of a Go map in increasing key order, the order in which
`encoding/json` writes them. -/
def sortKeys {α : Type} : List (GoString × α) → List (GoString × α)
  | [] => []
  | p :: rest => insertByKey p (sortKeys rest)

/-- Look a key up in a Go map given as a list of members. -/
def mapGet {α : Type} (m : List (GoString × α)) (k : GoString) : Option α :=
  (m.find? (fun p => decide (p.1 = k))).map (fun p => p.2)

/-! ## encoding/json: the encoder

Modelled from the Go standard library (`encoding/json`, not part of the
repository): `Marshal`, `MarshalIndent(v, "", "  ")` and
`Encoder.Encode` on the value shapes the programs build. -/

/-- The table `hex = "0123456789abcdef"`. -/
def hexDigit (d : Nat) : Nat := if d < 10 then 0x30 + d else 0x57 + d

/-- The table `htmlSafeSet`: the ASCII bytes written without escaping, that
is 0x20..0x7F except the double quote, the backslash and the characters
and-sign, less-than and greater-than. -/
def htmlSafe (b : Nat) : Bool :=
  decide (0x20 ≤ b) && decide (b < 0x80) && decide (b ≠ 0x22) && decide (b ≠ 0x26) &&
    decide (b ≠ 0x3C) && decide (b ≠ 0x3E) && decide (b ≠ 0x5C)

/-- What `appendString` writes for one ASCII byte (Go 1.22 and later; earlier
releases write the six-byte form of the last line also for backspace and
form feed). -/
def escapeByte (b : Nat) : GoString :=
  if htmlSafe b then [b]
  else if b = 0x5C ∨ b = 0x22 then [0x5C, b]
  else if b = 0x08 then [0x5C, 0x62]
  else if b = 0x0C then [0x5C, 0x66]
  else if b = 0x0A then [0x5C, 0x6E]
  else if b = 0x0D then [0x5C, 0x72]
  else if b = 0x09 then [0x5C, 0x74]
  else [0x5C, 0x75, 0x30, 0x30, hexDigit (b / 16), hexDigit (b % 16)]

/-- The loop of `appendString` over the bytes not yet written. Every
iteration consumes at least one byte, so the first argument, a bound on the
number of iterations, is never reached when it is at least `len(src)`. -/
def appendStringLoop : Nat → GoString → GoString
  | 0, _ => []
  | _ + 1, [] => []
  | fuel + 1, b :: rest =>
    if b < 0x80 then escapeByte b ++ appendStringLoop fuel rest
    else
      let d := decodeRune (b :: rest)
      if d.1 = RuneError ∧ d.2 = 1 then
        -- invalid UTF-8: the byte is replaced by the escape of U+FFFD
        [0x5C, 0x75, 0x66, 0x66, 0x66, 0x64] ++ appendStringLoop fuel rest
      else if d.1 = 0x2028 ∨ d.1 = 0x2029 then
        [0x5C, 0x75, 0x32, 0x30, 0x32, hexDigit (d.1 % 16)] ++
          appendStringLoop fuel (rest.drop (d.2 - 1))
      else (b :: rest).take d.2 ++ appendStringLoop fuel (rest.drop (d.2 - 1))

/-- The function `appendString(dst, src, escapeHTML = true)`: the JSON string literal for
the Go string `src`. -/
def appendString (src : GoString) : GoString :=
  [0x22] ++ appendStringLoop src.length src ++ [0x22]

/-- The JSON values the programs encode. -/
inductive JSON where
  /-- A Go string, escaped when written. -/
  | str (s : GoString)
  /-- The scalar JSON text returned by a `MarshalJSON` method. -/
  | raw (b : GoString)
  /-- A non-nil slice. -/
  | arr (xs : List JSON)
  /-- A struct (fields in declaration order) or a map (keys sorted). -/
  | obj (kvs : List (GoString × JSON))

mutual
/-- Compact encoding, as written by `json.Marshal`. -/
def JSON.compact : JSON → GoString
  | .str s => appendString s
  | .raw b => b
  | .arr xs => [0x5B] ++ compactItems xs ++ [0x5D]
  | .obj kvs => [0x7B] ++ compactMembers kvs ++ [0x7D]
/-- The elements of an array, separated by commas. -/
def compactItems : List JSON → GoString
  | [] => []
  | x :: xs => x.compact ++ (if xs.isEmpty then [] else [0x2C]) ++ compactItems xs
/-- The members of an object, separated by commas. -/
def compactMembers : List (GoString × JSON) → GoString
  | [] => []
  | (k, v) :: rest =>
    appendString k ++ [0x3A] ++ v.compact ++ (if rest.isEmpty then [] else [0x2C]) ++
      compactMembers rest
end

/-- A line break followed by `depth` copies of the indent string `"  "`. -/
def newline (depth : Nat) : GoString := 0x0A :: List.replicate (2 * depth) 0x20

mutual
/-- Indented encoding at nesting depth `d`, as written by
`json.MarshalIndent(v, "", "  ")`. -/
def JSON.indent (d : Nat) : JSON → GoString
  | .str s => appendString s
  | .raw b => b
  | .arr xs =>
    if xs.isEmpty then [0x5B, 0x5D]
    else [0x5B] ++ newline (d + 1) ++ indentItems (d + 1) xs ++ newline d ++ [0x5D]
  | .obj kvs =>
    if kvs.isEmpty then [0x7B, 0x7D]
    else [0x7B] ++ newline (d + 1) ++ indentMembers (d + 1) kvs ++ newline d ++ [0x7D]
/-- The elements of an array, one per line. -/
def indentItems (d : Nat) : List JSON → GoString
  | [] => []
  | x :: xs => x.indent d ++ (if xs.isEmpty then [] else 0x2C :: newline d) ++ indentItems d xs
/-- The members of an object, one per line. -/
def indentMembers (d : Nat) : List (GoString × JSON) → GoString
  | [] => []
  | (k, v) :: rest =>
    appendString k ++ [0x3A, 0x20] ++ v.indent d ++
      (if rest.isEmpty then [] else 0x2C :: newline d) ++ indentMembers d rest
end

/-- The call `json.Marshal(v)` on an encodable value. -/
def Marshal (v : JSON) : GoString := v.compact

/-- The call `json.MarshalIndent(v, "", "  ")` on an encodable value. -/
def MarshalIndent (v : JSON) : GoString := v.indent 0

/-! ## encoding/json: the decoder

Modelled from the Go standard library: `json.Unmarshal` into a struct of
string fields, on inputs that are one object whose member values are string
literals. `none` stands for an error or for an input outside this fragment. -/

/-- One hexadecimal digit, in either case. -/
def hexVal (c : Nat) : Option Nat :=
  if 0x30 ≤ c ∧ c ≤ 0x39 then some (c - 0x30)
  else if 0x61 ≤ c ∧ c ≤ 0x66 then some (c - 0x61 + 10)
  else if 0x41 ≤ c ∧ c ≤ 0x46 then some (c - 0x41 + 10)
  else none

/-- The function `getu4`: the code unit of a backslash-u escape at the start of `s`. -/
def getu4 (s : GoString) : Option Nat :=
  match s with
  | e :: u :: a :: b :: c :: d :: _ =>
    if e = 0x5C ∧ u = 0x75 then
      match hexVal a, hexVal b, hexVal c, hexVal d with
      | some a, some b, some c, some d => some (((a * 16 + b) * 16 + c) * 16 + d)
      | _, _, _, _ => none
    else none
  | _ => none

/-- Prepend decoded bytes to the result of decoding the rest. -/
def emit (bytes : GoString) (r : Option (GoString × GoString)) : Option (GoString × GoString) :=
  r.map (fun p => (bytes ++ p.1, p.2))

/-- The body of a string literal, from after the opening quote: the scanner
finds the closing quote and rejects control characters and unknown
escapes, `unquote` decodes escapes and coerces invalid UTF-8 to U+FFFD.
Returns the decoded Go string and the input after the closing quote. The
first argument bounds the number of iterations. -/
def unquoteLoop : Nat → GoString → Option (GoString × GoString)
  | 0, _ => none
  | _ + 1, [] => none
  | fuel + 1, c :: rest =>
    if c = 0x22 then some ([], rest)
    else if c = 0x5C then
      match rest with
      | [] => none
      | e :: rest1 =>
        if e = 0x22 ∨ e = 0x5C ∨ e = 0x2F then emit [e] (unquoteLoop fuel rest1)
        else if e = 0x62 then emit [0x08] (unquoteLoop fuel rest1)
        else if e = 0x66 then emit [0x0C] (unquoteLoop fuel rest1)
        else if e = 0x6E then emit [0x0A] (unquoteLoop fuel rest1)
        else if e = 0x72 then emit [0x0D] (unquoteLoop fuel rest1)
        else if e = 0x74 then emit [0x09] (unquoteLoop fuel rest1)
        else if e = 0x75 then
          match getu4 (c :: rest) with
          | none => none
          | some rr =>
            let after := rest1.drop 4
            if 0xD800 ≤ rr ∧ rr < 0xE000 then
              match getu4 after with
              | some rr1 =>
                if rr < 0xDC00 ∧ 0xDC00 ≤ rr1 ∧ rr1 < 0xE000 then
                  emit (encodeRune ((rr - 0xD800) * 1024 + (rr1 - 0xDC00) + 0x10000))
                    (unquoteLoop fuel (after.drop 6))
                else emit (encodeRune RuneError) (unquoteLoop fuel after)
              | none => emit (encodeRune RuneError) (unquoteLoop fuel after)
            else emit (encodeRune rr) (unquoteLoop fuel after)
        else none
    else if c < 0x20 then none
    else if c < 0x80 then emit [c] (unquoteLoop fuel rest)
    else
      let d := decodeRune (c :: rest)
      emit (encodeRune d.1) (unquoteLoop fuel (rest.drop (d.2 - 1)))

/-- A string literal at the start of the input. -/
def parseString (s : GoString) : Option (GoString × GoString) :=
  match s with
  | [] => none
  | c :: rest => if c = 0x22 then unquoteLoop (rest.length + 1) rest else none

/-- JSON white space: space, tab, carriage return, line feed. -/
def isSpace (c : Nat) : Bool := c = 0x20 || c = 0x09 || c = 0x0D || c = 0x0A

/-- Skip white space. -/
def skipSpace : GoString → GoString
  | [] => []
  | c :: rest => if isSpace c then skipSpace rest else c :: rest

/-- The members of an object from the first key on, up to and including the
closing brace. The first argument bounds the number of members. -/
def parseMembers : Nat → GoString → Option (List (GoString × GoString) × GoString)
  | 0, _ => none
  | fuel + 1, s =>
    match parseString (skipSpace s) with
    | none => none
    | some (k, s1) =>
      match skipSpace s1 with
      | [] => none
      | c :: s2 =>
        if c ≠ 0x3A then none
        else
          match parseString (skipSpace s2) with
          | none => none
          | some (v, s3) =>
            match skipSpace s3 with
            | [] => none
            | c1 :: s4 =>
              if c1 = 0x2C then (parseMembers fuel s4).map (fun r => ((k, v) :: r.1, r.2))
              else if c1 = 0x7D then some ([(k, v)], s4)
              else none

/-- A whole input that is one object with string-valued members. -/
def parseObject (s : GoString) : Option (List (GoString × GoString)) :=
  match skipSpace s with
  | [] => none
  | c :: s1 =>
    if c ≠ 0x7B then none
    else
      match skipSpace s1 with
      | [] => none
      | c1 :: s2 =>
        if c1 = 0x7D then (if skipSpace s2 = [] then some [] else none)
        else
          match parseMembers s1.length s1 with
          | none => none
          | some (ms, s3) => if skipSpace s3 = [] then some ms else none

/-! ## Time

Package `time` is not modelled: a time value is an instant, and the two
renderings the programs use are parameters. Every value `time.Now()`
returns has the location `Local`, whose zone is a setting of the process;
the zone is therefore part of the renderings, not of the value. -/

/-- A `time.Time` value. -/
structure Time where
  /-- Nanoseconds since the Unix epoch. -/
  unixNano : Int
  deriving DecidableEq

/-- The renderings of a time value used by the programs. -/
structure TimeLib where
  /-- The method call `t.Format(time.RFC3339)`. -/
  formatRFC3339 : Time → GoString
  /-- The method `t.MarshalJSON()`, which `encoding/json` calls for a `time.Time`: the
  JSON text, or `none` when it returns an error. -/
  marshalJSON : Time → Option GoString

/-- The dynamic values stored in the programs' `map[string]interface{}` literals. -/
inductive Value where
  /-- A `string`. -/
  | string (s : GoString)
  /-- A non-nil `[]string`. -/
  | strings (xs : List GoString)
  /-- A `map[string]string`. -/
  | stringMap (m : List (GoString × GoString))
  /-- A `time.Time`. -/
  | time (t : Time)
  deriving DecidableEq

/-- A `map[string]interface{}` literal, as its members in source order. -/
abbrev GoMap := List (GoString × Value)

/-- How `encoding/json` encodes a dynamic value. -/
def Value.toJSON (lib : TimeLib) : Value → Option JSON
  | .string s => some (.str s)
  | .strings xs => some (.arr (xs.map JSON.str))
  | .stringMap m => some (.obj ((sortKeys m).map (fun p => (p.1, JSON.str p.2))))
  | .time t => (lib.marshalJSON t).map JSON.raw

/-- How `encoding/json` encodes a `map[string]interface{}`: members in key
order; the first member that fails to encode fails the whole encoding. -/
def GoMap.toJSON (lib : TimeLib) (m : GoMap) : Option JSON :=
  ((sortKeys m).mapM (fun (p : GoString × Value) => (p.2.toJSON lib).map (fun j => (p.1, j)))).map
    JSON.obj

/-! ## The CLI tool (`src/cli-tool/main.go`) -/

/-- The package-level variables `version`, `commit`, `date` (set at link
time) and the constants of package `runtime`. -/
structure CliTool.Build where
  version : GoString
  commit : GoString
  date : GoString
  /-- The value of `runtime.Version()`. -/
  goVersion : GoString
  GOOS : GoString
  GOARCH : GoString
  deriving DecidableEq

/-- Everything a run of the CLI tool reads besides its flags. -/
structure CliTool.World where
  build : CliTool.Build
  /-- The reading of `time.Now()`. -/
  now : Time
  /-- What `flag.PrintDefaults()` writes (to standard error). -/
  flagDefaults : GoString
  deriving DecidableEq

/-- The initial values of the package-level variables, kept by a build that
does not override them. -/
def CliTool.devBuild (goVersion GOOS GOARCH : GoString) : CliTool.Build :=
  { version := str "dev", commit := str "unknown", date := str "unknown",
    goVersion := goVersion, GOOS := GOOS, GOARCH := GOARCH }

structure CliTool.BuildInfo where
  Version : GoString
  Commit : GoString
  BuildDate : GoString
  GoVersion : GoString
  Platform : GoString
  deriving DecidableEq

structure CliTool.Status where
  Status : GoString
  Timestamp : Time
  Build : CliTool.BuildInfo
  deriving DecidableEq

/-- Encoding of a `BuildInfo`: the fields in declaration order under their
`json` tags. -/
def CliTool.BuildInfo.toJSON (b : CliTool.BuildInfo) : JSON :=
  .obj [(str "version", .str b.Version), (str "commit", .str b.Commit),
    (str "build_date", .str b.BuildDate), (str "go_version", .str b.GoVersion),
    (str "platform", .str b.Platform)]

/-- Encoding of a `Status`; it fails when the timestamp's `MarshalJSON` fails. -/
def CliTool.Status.toJSON (lib : TimeLib) (s : CliTool.Status) : Option JSON :=
  (lib.marshalJSON s.Timestamp).map (fun t =>
    JSON.obj [(str "status", .str s.Status), (str "timestamp", .raw t),
      (str "build", s.Build.toJSON)])

/-- Store the value of one decoded member in the field whose `json` tag is
the member's key. Keys other than the five tags are outside the modelled
fragment of the decoder. -/
def CliTool.BuildInfo.setField (b : CliTool.BuildInfo) (kv : GoString × GoString) :
    Option CliTool.BuildInfo :=
  if kv.1 = str "version" then some { b with Version := kv.2 }
  else if kv.1 = str "commit" then some { b with Commit := kv.2 }
  else if kv.1 = str "build_date" then some { b with BuildDate := kv.2 }
  else if kv.1 = str "go_version" then some { b with GoVersion := kv.2 }
  else if kv.1 = str "platform" then some { b with Platform := kv.2 }
  else none

/-- The call `json.Unmarshal(data, &dst)` for `dst` of type `BuildInfo`:
the members are stored in order, fields not mentioned keep their value. -/
def CliTool.BuildInfo.Unmarshal (data : GoString) (dst : CliTool.BuildInfo) :
    Option CliTool.BuildInfo :=
  match parseObject data with
  | none => none
  | some ms => ms.foldlM CliTool.BuildInfo.setField dst

/-- The four flags after `flag.Parse()`. -/
structure CliTool.Flags where
  showVersion : Bool
  showStatus : Bool
  outputJSON : Bool
  demo : Bool
  deriving DecidableEq

/-- What a run writes. -/
structure CliTool.Output where
  stdout : GoString
  stderr : GoString
  deriving DecidableEq

/-- The call `fmt.Println(string(output))` after `output, _ := json.MarshalIndent(..)`:
on an encoding error `output` is nil and an empty line is printed. -/
def CliTool.printJSON (v : Option JSON) : CliTool.Output :=
  { stdout := (v.map MarshalIndent).getD [] ++ str "\n", stderr := [] }

/-- The `BuildInfo` composite literal of `main` (lines 41-47 and 67-73). -/
def CliTool.buildInfo (b : CliTool.Build) : CliTool.BuildInfo :=
  { Version := b.version, Commit := b.commit, BuildDate := b.date, GoVersion := b.goVersion,
    Platform := List.flatten [b.GOOS, str "/", b.GOARCH] }

/-- The `Status` composite literal of `main` (lines 64-74). -/
def CliTool.status (w : CliTool.World) : CliTool.Status :=
  { Status := str "running", Timestamp := w.now, Build := CliTool.buildInfo w.build }

/-- The function `repeat`: the loop `for i := 0; i < count; i++`, entered
with the current `i` and `result`. -/
def CliTool.repeatLoop (s : GoString) (count : Int) (i : Int) (result : GoString) : GoString :=
  if i < count then CliTool.repeatLoop s count (i + 1) (result ++ s) else result
termination_by (count - i).toNat
decreasing_by omega

def CliTool.repeat (s : GoString) (count : Int) : GoString :=
  CliTool.repeatLoop s count 0 []

/-- The slice `features` of `runDemo`. -/
def CliTool.features : List GoString :=
  [str "Cross-platform compilation", str "Automated releases", str "GitHub CLI integration",
    str "Docker multi-arch images", str "Package signing", str "SBOM generation"]

/-- The slice `platforms` of `runDemo`. -/
def CliTool.platforms : List GoString :=
  [str "linux/amd64", str "linux/arm64", str "darwin/amd64", str "darwin/arm64",
    str "windows/amd64"]

/-- The map `demo` of `runDemo` (lines 127-140). -/
def CliTool.demoPayload (lib : TimeLib) (w : CliTool.World) : GoMap :=
  [(str "message",
      .string (str "Welcome to the GitHub Actions Multi-Platform Release Demo! 🚀")),
    (str "description",
      .string (str "This CLI tool showcases automated cross-platform builds and releases")),
    (str "features", .strings CliTool.features),
    (str "platforms", .strings CliTool.platforms),
    (str "workflow", .string (str "02-multi-platform-release.yml")),
    (str "build_info", .stringMap
      [(str "version", w.build.version), (str "commit", w.build.commit),
        (str "platform", List.flatten [w.build.GOOS, str "/", w.build.GOARCH]),
        (str "go_version", w.build.goVersion)]),
    (str "timestamp", .string (lib.formatRFC3339 w.now))]

/-- The lines `fmt.Printf("  • %s\n", x)` for `x` ranging over a slice. -/
def CliTool.bullets (xs : List GoString) : GoString :=
  xs.flatMap (fun x => List.flatten [str "  • ", x, str "\n"])

/-- The text branch of `runDemo` (lines 146-170): the writes in order. -/
def CliTool.demoText (w : CliTool.World) : GoString :=
  List.flatten
    [str "🚀 GitHub Actions Multi-Platform Release Demo\n",
      str "=" ++ CliTool.repeat (str "=") 45, str "\n",
      str "\n",
      str "Version: ", w.build.version, str "\n",
      str "Platform: ", w.build.GOOS, str "/", w.build.GOARCH, str "\n",
      str "Built with: ", w.build.goVersion, str "\n",
      str "\n",
      str "✨ Features:\n",
      CliTool.bullets CliTool.features,
      str "\n",
      str "🖥️  Supported Platforms:\n",
      CliTool.bullets CliTool.platforms,
      str "\n",
      str "📋 Workflow: 02-multi-platform-release.yml\n",
      str "\n",
      str "This tool demonstrates how GitHub Actions can:\n",
      str "• Build binaries for multiple operating systems and architectures\n",
      str "• Create automated releases with semantic versioning\n",
      str "• Generate checksums and sign binaries\n",
      str "• Build and push multi-architecture Docker images\n",
      str "• Create Homebrew formulas and package distributions\n"]

def CliTool.runDemo (lib : TimeLib) (w : CliTool.World) (jsonOutput : Bool) : CliTool.Output :=
  if jsonOutput then CliTool.printJSON ((CliTool.demoPayload lib w).toJSON lib)
  else { stdout := CliTool.demoText w, stderr := [] }

/-- The text branch of the `--version` block (lines 53-58): the writes in order. -/
def CliTool.versionText (info : CliTool.BuildInfo) : GoString :=
  List.flatten
    [str "GitHub Actions Demo CLI Tool\n",
      str "Version:    ", info.Version, str "\n",
      str "Commit:     ", info.Commit, str "\n",
      str "Build Date: ", info.BuildDate, str "\n",
      str "Go Version: ", info.GoVersion, str "\n",
      str "Platform:   ", info.Platform, str "\n"]

/-- The `--version` block of `main` (lines 41-59). -/
def CliTool.versionBlock (w : CliTool.World) (outputJSON : Bool) : CliTool.Output :=
  let buildInfo := CliTool.buildInfo w.build
  if outputJSON then CliTool.printJSON (some buildInfo.toJSON)
  else { stdout := CliTool.versionText buildInfo, stderr := [] }

/-- The text branch of the `--status` block (lines 80-83): the writes in order. -/
def CliTool.statusText (lib : TimeLib) (status : CliTool.Status) : GoString :=
  List.flatten
    [str "Status: ", status.Status, str "\n",
      str "Timestamp: ", lib.formatRFC3339 status.Timestamp, str "\n",
      str "Version: ", status.Build.Version, str "\n",
      str "Platform: ", status.Build.Platform, str "\n"]

/-- The `--status` block of `main` (lines 64-84). -/
def CliTool.statusBlock (lib : TimeLib) (w : CliTool.World) (outputJSON : Bool) :
    CliTool.Output :=
  let status := CliTool.status w
  if outputJSON then CliTool.printJSON (status.toJSON lib)
  else { stdout := CliTool.statusText lib status, stderr := [] }

/-- The default block of `main`: the help text (lines 94-106). The flag
defaults go to standard error, everything else to standard output. -/
def CliTool.helpBlock (w : CliTool.World) : CliTool.Output :=
  { stdout :=
      List.flatten
        [str "GitHub Actions Demo CLI Tool v", w.build.version, str "\n\n",
          str "This tool demonstrates multi-platform release automation with GitHub Actions.\n",
          str "\n",
          str "Usage:\n",
          str "  cli-tool [flags]\n",
          str "\n",
          str "Flags:\n",
          str "\n",
          str "Examples:\n",
          str "  cli-tool --version\n",
          str "  cli-tool --status --json\n",
          str "  cli-tool --demo\n"],
    stderr := w.flagDefaults }

/-- The function `main` after `flag.Parse()`: each `if` block ends in `return`. -/
def CliTool.main (lib : TimeLib) (w : CliTool.World) (f : CliTool.Flags) : CliTool.Output :=
  if f.showVersion then CliTool.versionBlock w f.outputJSON
  else if f.showStatus then CliTool.statusBlock lib w f.outputJSON
  else if f.demo then CliTool.runDemo lib w f.outputJSON
  else CliTool.helpBlock w

/-! ## The process environment -/

/-- The process environment: the value of each variable that is set. -/
abbrev Environ := GoString → Option GoString

/-- The function `os.Getenv`: the value of the variable, empty when it is not set. -/
def Getenv (env : Environ) (key : GoString) : GoString := (env key).getD []

/-! ## net/http and gorilla/mux (as used by the microservice)

Modelled from the libraries: a response writer whose header map is sent,
with the status, by the first `WriteHeader`, which the first `Write` and the
end of the request call with status 200 when the handler has not. -/

/-- An `http.Header`: the values stored under each key. -/
abbrev Header := List (GoString × List GoString)

/-- The method `Header.Set`: replace the values under `key` by the single `value`. -/
def Header.set (h : Header) (key value : GoString) : Header :=
  (key, [value]) :: h.filter (fun p => decide (p.1 ≠ key))

/-- The values stored under `key`. -/
def Header.values (h : Header) (key : GoString) : Option (List GoString) := mapGet h key

/-- What a handler does to its response writer, in order. -/
inductive Effect where
  | setHeader (key value : GoString)
  | writeHeader (code : Nat)
  | write (data : GoString)
  deriving DecidableEq

/-- The state of an `http.ResponseWriter`. -/
structure ResponseWriter where
  /-- The map returned by `w.Header()`. -/
  header : Header
  wroteHeader : Bool
  /-- The status code sent; meaningful once `wroteHeader`. -/
  status : Nat
  /-- The header map as it was when the status line was sent. -/
  sentHeader : Header
  /-- The body bytes written so far. -/
  body : GoString
  /-- The calls made on the writer so far, oldest first. -/
  trace : List Effect
  deriving DecidableEq

/-- The writer a handler receives. -/
def ResponseWriter.fresh : ResponseWriter :=
  { header := [], wroteHeader := false, status := 0, sentHeader := [], body := [], trace := [] }

/-- The call `w.Header().Set(key, value)`. -/
def ResponseWriter.setHeader (w : ResponseWriter) (key value : GoString) : ResponseWriter :=
  { w with header := w.header.set key value, trace := w.trace ++ [.setHeader key value] }

/-- The call `w.WriteHeader(code)`: the first call sends the status and the current header
map, later calls are ignored. -/
def ResponseWriter.WriteHeader (w : ResponseWriter) (code : Nat) : ResponseWriter :=
  if w.wroteHeader then w
  else { w with wroteHeader := true, status := code, sentHeader := w.header,
                trace := w.trace ++ [.writeHeader code] }

/-- The call `w.Write(data)`: sends the header with status 200 first if it has not been sent. -/
def ResponseWriter.Write (w : ResponseWriter) (data : GoString) : ResponseWriter :=
  let w1 := if w.wroteHeader then w else w.WriteHeader 200
  { w1 with body := w1.body ++ data, trace := w1.trace ++ [.write data] }

/-- The call `json.NewEncoder(w).Encode(v)`: the compact encoding and a line feed in one
`Write`; when the value fails to encode nothing is written (the handlers
ignore the error). -/
def Encode (w : ResponseWriter) (v : Option JSON) : ResponseWriter :=
  match v with
  | none => w
  | some j => w.Write (Marshal j ++ [0x0A])

/-- The response as sent. -/
structure Response where
  status : Nat
  header : Header
  body : GoString
  deriving DecidableEq

/-- The end of a request: the server sends the header with status 200 if the
handler has not. -/
def ResponseWriter.finish (w : ResponseWriter) : Response :=
  let w1 := if w.wroteHeader then w else w.WriteHeader 200
  { status := w1.status, header := w1.sentHeader, body := w1.body }

/-- The parts of an `http.Request` the router looks at; the handlers look at none. -/
structure Request where
  method : GoString
  path : GoString
  body : GoString
  deriving DecidableEq

/-! ## The microservice (`src/microservice/main.go`) -/

/-- Everything a request to the microservice can read. -/
structure Microservice.World where
  env : Environ
  /-- The reading of `time.Now()`. -/
  now : Time

structure Microservice.HealthCheck where
  Status : GoString
  Timestamp : Time
  Version : GoString
  Service : GoString
  deriving DecidableEq

structure Microservice.ServiceInfo where
  Name : GoString
  Version : GoString
  Environment : GoString
  Security : List (GoString × GoString)
  Features : List GoString
  deriving DecidableEq

/-- Encoding of a `HealthCheck`; it fails when the timestamp's `MarshalJSON` fails. -/
def Microservice.HealthCheck.toJSON (lib : TimeLib) (h : Microservice.HealthCheck) :
    Option JSON :=
  (lib.marshalJSON h.Timestamp).map (fun t =>
    JSON.obj [(str "status", .str h.Status), (str "timestamp", .raw t),
      (str "version", .str h.Version), (str "service", .str h.Service)])

/-- Encoding of a `ServiceInfo`. -/
def Microservice.ServiceInfo.toJSON (s : Microservice.ServiceInfo) : JSON :=
  .obj [(str "name", .str s.Name), (str "version", .str s.Version),
    (str "environment", .str s.Environment),
    (str "security", .obj ((sortKeys s.Security).map (fun p => (p.1, JSON.str p.2)))),
    (str "features", .arr (s.Features.map JSON.str))]

def Microservice.getVersion (env : Environ) : GoString :=
  let version := Getenv env (str "VERSION")
  if version = [] then str "1.0.0" else version

def Microservice.getEnvironment (env : Environ) : GoString :=
  let env1 := Getenv env (str "ENVIRONMENT")
  if env1 = [] then str "development" else env1

/-- The variable `port` of `main` (lines 40-43). -/
def Microservice.port (env : Environ) : GoString :=
  let port := Getenv env (str "PORT")
  if port = [] then str "8080" else port

/-- The address passed to `http.ListenAndServe` (line 46). -/
def Microservice.listenAddr (env : Environ) : GoString := str ":" ++ Microservice.port env

/-- The struct `health` of `healthHandler`. -/
def Microservice.health (w : Microservice.World) : Microservice.HealthCheck :=
  { Status := str "healthy", Timestamp := w.now, Version := Microservice.getVersion w.env,
    Service := str "secure-microservice" }

/-- The map `ready` of `readinessHandler`. -/
def Microservice.ready (w : Microservice.World) : GoMap :=
  [(str "status", .string (str "ready")),
    (str "timestamp", .time w.now),
    (str "checks", .stringMap
      [(str "database", str "connected"), (str "external_apis", str "available"),
        (str "cache", str "healthy")])]

/-- The map `info` of `infoHandler`. -/
def Microservice.info (w : Microservice.World) : GoMap :=
  [(str "service", .string (str "secure-microservice")),
    (str "version", .string (Microservice.getVersion w.env)),
    (str "environment", .string (Microservice.getEnvironment w.env)),
    (str "golang", .string (str "1.21")),
    (str "security_features", .strings
      [str "HTTPS only", str "CORS protection", str "Input validation", str "Rate limiting",
        str "Security headers"]),
    (str "compliance", .strings [str "SOC 2", str "GDPR", str "HIPAA ready"])]

/-- The struct `serviceInfo` of `serviceInfoHandler`. -/
def Microservice.serviceInfo (w : Microservice.World) : Microservice.ServiceInfo :=
  { Name := str "GitHub Actions Security Demo",
    Version := Microservice.getVersion w.env,
    Environment := Microservice.getEnvironment w.env,
    Security :=
      [(str "code_scanning", str "CodeQL enabled"),
        (str "dependency_scanning", str "Trivy + npm audit"),
        (str "container_scanning", str "Trivy container scan"),
        (str "secret_scanning", str "TruffleHog"),
        (str "policy_validation", str "OPA policies"),
        (str "image_signing", str "Cosign"),
        (str "sbom_generation", str "Syft")],
    Features :=
      [str "OIDC authentication", str "Multi-stage Docker builds", str "Non-root containers",
        str "Resource limits", str "Health checks", str "Readiness probes",
        str "Security policies"] }

/-- A handler: from the writer it is given and the request to the writer it leaves. -/
abbrev Handler := TimeLib → Microservice.World → ResponseWriter → Request → ResponseWriter

def Microservice.healthHandler : Handler := fun lib world w _r =>
  let health := Microservice.health world
  let w1 := w.setHeader (str "Content-Type") (str "application/json")
  Encode w1 (health.toJSON lib)

def Microservice.readinessHandler : Handler := fun lib world w _r =>
  let ready := Microservice.ready world
  let w1 := w.setHeader (str "Content-Type") (str "application/json")
  Encode w1 (ready.toJSON lib)

def Microservice.infoHandler : Handler := fun lib world w _r =>
  let info := Microservice.info world
  let w1 := w.setHeader (str "Content-Type") (str "application/json")
  Encode w1 (info.toJSON lib)

def Microservice.serviceInfoHandler : Handler := fun _lib world w _r =>
  let serviceInfo := Microservice.serviceInfo world
  let w1 := w.setHeader (str "Content-Type") (str "application/json")
  Encode w1 (some serviceInfo.toJSON)

/-- The four handlers, named. -/
inductive Microservice.Endpoint where
  | health
  | readiness
  | info
  | serviceInfo
  deriving DecidableEq

/-- The handler function of each endpoint. -/
def Microservice.Endpoint.handler : Microservice.Endpoint → Handler
  | .health => Microservice.healthHandler
  | .readiness => Microservice.readinessHandler
  | .info => Microservice.infoHandler
  | .serviceInfo => Microservice.serviceInfoHandler

/-- A `mux` route: a path to match exactly, the methods it is restricted to
(none: any method) and the handler. -/
structure Route where
  path : GoString
  methods : List GoString
  endpoint : Microservice.Endpoint
  deriving DecidableEq

/-- The call `r.HandleFunc(path, f).Methods(methods...)` on a router or on the subrouter
of `PathPrefix(pathPrefix)`: one more route, matched after the earlier ones. -/
def HandleFunc (routes : List Route) (pathPrefix path : GoString)
    (endpoint : Microservice.Endpoint) (methods : List GoString) : List Route :=
  routes ++ [{ path := pathPrefix ++ path, methods := methods, endpoint := endpoint }]

/-- The router built by `main` (lines 29-38). -/
def Microservice.router : List Route :=
  let r : List Route := []
  let r := HandleFunc r [] (str "/health") .health [str "GET"]
  let r := HandleFunc r [] (str "/ready") .readiness [str "GET"]
  let r := HandleFunc r [] (str "/info") .info [str "GET"]
  let api := str "/api/v1"
  HandleFunc r api (str "/service") .serviceInfo [str "GET"]

/-- Does the route accept the request? -/
def Route.accepts (rt : Route) (r : Request) : Bool :=
  decide (rt.path = r.path) && (rt.methods.isEmpty || rt.methods.contains r.method)

/-- The method `Router.ServeHTTP`: the first route that accepts the request handles it;
otherwise the response is 405 when some route has the path and 404 when
none has. -/
def ServeHTTP (routes : List Route) (lib : TimeLib) (world : Microservice.World)
    (r : Request) : Response :=
  match routes.find? (fun rt => rt.accepts r) with
  | some rt => (rt.endpoint.handler lib world ResponseWriter.fresh r).finish
  | none =>
    if routes.any (fun rt => decide (rt.path = r.path)) then
      (ResponseWriter.fresh.WriteHeader 405).finish
    else ((ResponseWriter.fresh.WriteHeader 404).Write (str "404 page not found\n")).finish

/-! ## Definitions used to state the properties -/

/-- The members of a struct or map whose values are all strings. -/
def strMembers (kvs : List (GoString × GoString)) : List (GoString × JSON) :=
  kvs.map (fun p => (p.1, JSON.str p.2))

/-- The members of a payload map other than its timestamp. -/
def withoutTimestamp (m : GoMap) : GoMap := m.filter (fun p => decide (p.1 ≠ str "timestamp"))

/-- The four output blocks of `main`. -/
inductive CliTool.Block where
  | version
  | status
  | demo
  | help
  deriving DecidableEq

/-- What each block writes. -/
def CliTool.Block.output (lib : TimeLib) (w : CliTool.World) (outputJSON : Bool) :
    CliTool.Block → CliTool.Output
  | .version => CliTool.versionBlock w outputJSON
  | .status => CliTool.statusBlock lib w outputJSON
  | .demo => CliTool.runDemo lib w outputJSON
  | .help => CliTool.helpBlock w

/-- The block the specification selects: the first of `--version`,
`--status`, `--demo` that is set, the help block when none is. -/
def CliTool.selected (f : CliTool.Flags) : CliTool.Block :=
  if f.showVersion then .version
  else if f.showStatus then .status
  else if f.demo then .demo
  else .help

/-! # Properties -/

/-! ## UTF-8 -/

theorem isCont_iff (b : Nat) : isCont b = true ↔ 0x80 ≤ b ∧ b ≤ 0xBF := by
  simp [isCont]

/-- The shape of a valid string: empty, or one well-formed encoding of one to
four bytes followed by a valid string. -/
theorem validUTF8_cases (s : GoString) (h : validUTF8 s = true) :
    s = [] ∨
    (∃ b0 t, s = b0 :: t ∧ b0 < 0x80 ∧ validUTF8 t = true) ∨
    (∃ b0 b1 t, s = b0 :: b1 :: t ∧ 0xC2 ≤ b0 ∧ b0 ≤ 0xDF ∧ 0x80 ≤ b1 ∧ b1 ≤ 0xBF ∧
      validUTF8 t = true) ∨
    (∃ b0 b1 b2 t, s = b0 :: b1 :: b2 :: t ∧ 0xE0 ≤ b0 ∧ b0 ≤ 0xEF ∧
      (if b0 = 0xE0 then 0xA0 else 0x80) ≤ b1 ∧ b1 ≤ (if b0 = 0xED then 0x9F else 0xBF) ∧
      0x80 ≤ b2 ∧ b2 ≤ 0xBF ∧ validUTF8 t = true) ∨
    (∃ b0 b1 b2 b3 t, s = b0 :: b1 :: b2 :: b3 :: t ∧ 0xF0 ≤ b0 ∧ b0 ≤ 0xF4 ∧
      (if b0 = 0xF0 then 0x90 else 0x80) ≤ b1 ∧ b1 ≤ (if b0 = 0xF4 then 0x8F else 0xBF) ∧
      0x80 ≤ b2 ∧ b2 ≤ 0xBF ∧ 0x80 ≤ b3 ∧ b3 ≤ 0xBF ∧ validUTF8 t = true) := by
  match s, h with
  | [], _ => exact Or.inl rfl
  | b0 :: t, h =>
    right
    unfold validUTF8 at h
    by_cases h0 : b0 < 0x80
    · left
      rw [if_pos h0] at h
      exact ⟨b0, t, rfl, h0, h⟩
    · right
      rw [if_neg h0] at h
      match t, h with
      | [], h => simp at h
      | b1 :: t1, h =>
        simp only at h
        by_cases h2 : 0xC2 ≤ b0 ∧ b0 ≤ 0xDF
        · left
          rw [if_pos h2] at h
          simp only [Bool.and_eq_true, isCont_iff] at h
          exact ⟨b0, b1, t1, rfl, h2.1, h2.2, h.1.1, h.1.2, h.2⟩
        · right
          rw [if_neg h2] at h
          match t1, h with
          | [], h => simp at h
          | b2 :: t2, h =>
            simp only at h
            by_cases h3 : 0xE0 ≤ b0 ∧ b0 ≤ 0xEF
            · left
              rw [if_pos h3] at h
              simp only [Bool.and_eq_true, isCont_iff, decide_eq_true_eq] at h
              exact ⟨b0, b1, b2, t2, rfl, h3.1, h3.2, h.1.1.1, h.1.1.2, h.1.2.1, h.1.2.2, h.2⟩
            · right
              rw [if_neg h3] at h
              match t2, h with
              | [], h => simp at h
              | b3 :: t3, h =>
                simp only [Bool.and_eq_true, isCont_iff, decide_eq_true_eq] at h
                obtain ⟨⟨⟨⟨⟨⟨ha, hb⟩, hc⟩, hd⟩, he⟩, hf⟩, hg⟩ := h
                exact ⟨b0, b1, b2, b3, t3, rfl, ha, hb, hc, hd, he.1, he.2, hf.1, hf.2, hg⟩

theorem decodeRune_two (b0 b1 : Nat) (t : GoString) (h0 : 0xC2 ≤ b0) (h0' : b0 ≤ 0xDF)
    (h1 : 0x80 ≤ b1) (h1' : b1 ≤ 0xBF) :
    decodeRune (b0 :: b1 :: t) = ((b0 % 32) * 64 + b1 % 64, 2) := by
  unfold decodeRune
  simp only
  rw [if_neg (by omega), if_neg (by omega)]
  rw [if_neg (by split_ifs <;> omega), if_pos (by omega)]

theorem decodeRune_three (b0 b1 b2 : Nat) (t : GoString) (h0 : 0xE0 ≤ b0) (h0' : b0 ≤ 0xEF)
    (h1 : (if b0 = 0xE0 then 0xA0 else 0x80) ≤ b1)
    (h1' : b1 ≤ (if b0 = 0xED then 0x9F else 0xBF))
    (h2 : 0x80 ≤ b2) (h2' : b2 ≤ 0xBF) :
    decodeRune (b0 :: b1 :: b2 :: t) = ((b0 % 16) * 4096 + (b1 % 64) * 64 + b2 % 64, 3) := by
  unfold decodeRune
  simp only
  rw [if_neg (by omega), if_neg (by omega)]
  rw [if_neg (by split_ifs at h1 h1' ⊢ <;> omega), if_neg (by omega)]
  have hc : isCont b2 = true := (isCont_iff b2).mpr ⟨h2, h2'⟩
  simp only [hc, Bool.not_true, Bool.false_eq_true, if_false]
  rw [if_pos (by omega)]

theorem decodeRune_four (b0 b1 b2 b3 : Nat) (t : GoString) (h0 : 0xF0 ≤ b0) (h0' : b0 ≤ 0xF4)
    (h1 : (if b0 = 0xF0 then 0x90 else 0x80) ≤ b1)
    (h1' : b1 ≤ (if b0 = 0xF4 then 0x8F else 0xBF))
    (h2 : 0x80 ≤ b2) (h2' : b2 ≤ 0xBF) (h3 : 0x80 ≤ b3) (h3' : b3 ≤ 0xBF) :
    decodeRune (b0 :: b1 :: b2 :: b3 :: t) =
      ((b0 % 8) * 262144 + (b1 % 64) * 4096 + (b2 % 64) * 64 + b3 % 64, 4) := by
  unfold decodeRune
  simp only
  rw [if_neg (by omega), if_neg (by omega)]
  rw [if_neg (by split_ifs at h1 h1' ⊢ <;> omega), if_neg (by omega)]
  have hc : isCont b2 = true := (isCont_iff b2).mpr ⟨h2, h2'⟩
  have hd : isCont b3 = true := (isCont_iff b3).mpr ⟨h3, h3'⟩
  simp only [hc, hd, Bool.not_true, Bool.false_eq_true, if_false]
  rw [if_neg (by omega)]

theorem encodeRune_two (b0 b1 : Nat) (h0 : 0xC2 ≤ b0) (h0' : b0 ≤ 0xDF)
    (h1 : 0x80 ≤ b1) (h1' : b1 ≤ 0xBF) :
    encodeRune ((b0 % 32) * 64 + b1 % 64) = [b0, b1] := by
  unfold encodeRune
  rw [if_neg (by omega), if_pos (by omega)]
  congr 1
  · omega
  · congr 1; omega

theorem encodeRune_three (b0 b1 b2 : Nat) (h0 : 0xE0 ≤ b0) (h0' : b0 ≤ 0xEF)
    (h1 : (if b0 = 0xE0 then 0xA0 else 0x80) ≤ b1)
    (h1' : b1 ≤ (if b0 = 0xED then 0x9F else 0xBF))
    (h2 : 0x80 ≤ b2) (h2' : b2 ≤ 0xBF) :
    encodeRune ((b0 % 16) * 4096 + (b1 % 64) * 64 + b2 % 64) = [b0, b1, b2] := by
  unfold encodeRune
  have hb1 : 0x80 ≤ b1 ∧ b1 ≤ 0xBF := by split_ifs at h1 h1' <;> omega
  rw [if_neg (by split_ifs at h1 h1' <;> omega), if_neg (by split_ifs at h1 h1' <;> omega),
    if_neg (by split_ifs at h1 h1' <;> omega), if_pos (by omega)]
  congr 1
  · omega
  · congr 1
    · omega
    · congr 1; omega

theorem encodeRune_four (b0 b1 b2 b3 : Nat) (h0 : 0xF0 ≤ b0) (h0' : b0 ≤ 0xF4)
    (h1 : (if b0 = 0xF0 then 0x90 else 0x80) ≤ b1)
    (h1' : b1 ≤ (if b0 = 0xF4 then 0x8F else 0xBF))
    (h2 : 0x80 ≤ b2) (h2' : b2 ≤ 0xBF) (h3 : 0x80 ≤ b3) (h3' : b3 ≤ 0xBF) :
    encodeRune ((b0 % 8) * 262144 + (b1 % 64) * 4096 + (b2 % 64) * 64 + b3 % 64) =
      [b0, b1, b2, b3] := by
  unfold encodeRune
  have hb1 : 0x80 ≤ b1 ∧ b1 ≤ 0xBF := by split_ifs at h1 h1' <;> omega
  rw [if_neg (by split_ifs at h1 h1' <;> omega), if_neg (by split_ifs at h1 h1' <;> omega),
    if_neg (by split_ifs at h1 h1' <;> omega), if_neg (by split_ifs at h1 h1' <;> omega)]
  congr 1
  · omega
  · congr 1
    · omega
    · congr 1
      · omega
      · congr 1; omega

/-! ## JSON string literals: encoder steps -/

theorem appendStringLoop_nil (f : Nat) : appendStringLoop f [] = [] := by
  cases f <;> rfl

theorem appendStringLoop_ascii (f b0 : Nat) (t : GoString) (h : b0 < 0x80) :
    appendStringLoop (f + 1) (b0 :: t) = escapeByte b0 ++ appendStringLoop f t := by
  rw [appendStringLoop, if_pos h]

theorem appendStringLoop_two (f b0 b1 : Nat) (t : GoString) (h0 : 0xC2 ≤ b0) (h0' : b0 ≤ 0xDF)
    (h1 : 0x80 ≤ b1) (h1' : b1 ≤ 0xBF) :
    appendStringLoop (f + 1) (b0 :: b1 :: t) = [b0, b1] ++ appendStringLoop f t := by
  rw [appendStringLoop, if_neg (by omega)]
  simp only [decodeRune_two b0 b1 t h0 h0' h1 h1']
  rw [if_neg (by simp), if_neg (by omega)]
  rfl

theorem appendStringLoop_three (f b0 b1 b2 : Nat) (t : GoString)
    (h0 : 0xE0 ≤ b0) (h0' : b0 ≤ 0xEF)
    (h1 : (if b0 = 0xE0 then 0xA0 else 0x80) ≤ b1)
    (h1' : b1 ≤ (if b0 = 0xED then 0x9F else 0xBF))
    (h2 : 0x80 ≤ b2) (h2' : b2 ≤ 0xBF) :
    appendStringLoop (f + 1) (b0 :: b1 :: b2 :: t) =
      (if b0 = 0xE2 ∧ b1 = 0x80 ∧ (b2 = 0xA8 ∨ b2 = 0xA9) then
        [0x5C, 0x75, 0x32, 0x30, 0x32, b2 - 0x70]
       else [b0, b1, b2]) ++ appendStringLoop f t := by
  rw [appendStringLoop, if_neg (by omega)]
  simp only [decodeRune_three b0 b1 b2 t h0 h0' h1 h1' h2 h2']
  rw [if_neg (by simp)]
  by_cases hls : b0 = 0xE2 ∧ b1 = 0x80 ∧ (b2 = 0xA8 ∨ b2 = 0xA9)
  · rw [if_pos hls]
    obtain ⟨rfl, rfl, rfl | rfl⟩ := hls
    · rfl
    · rfl
  · rw [if_neg hls, if_neg (by split_ifs at h1 h1' <;> omega)]
    rfl

theorem appendStringLoop_four (f b0 b1 b2 b3 : Nat) (t : GoString)
    (h0 : 0xF0 ≤ b0) (h0' : b0 ≤ 0xF4)
    (h1 : (if b0 = 0xF0 then 0x90 else 0x80) ≤ b1)
    (h1' : b1 ≤ (if b0 = 0xF4 then 0x8F else 0xBF))
    (h2 : 0x80 ≤ b2) (h2' : b2 ≤ 0xBF) (h3 : 0x80 ≤ b3) (h3' : b3 ≤ 0xBF) :
    appendStringLoop (f + 1) (b0 :: b1 :: b2 :: b3 :: t) =
      [b0, b1, b2, b3] ++ appendStringLoop f t := by
  rw [appendStringLoop, if_neg (by omega)]
  simp only [decodeRune_four b0 b1 b2 b3 t h0 h0' h1 h1' h2 h2' h3 h3']
  rw [if_neg (by simp), if_neg (by split_ifs at h1 h1' <;> omega)]
  rfl

/-! ## JSON string literals: decoder steps -/

theorem hexVal_hexDigit (d : Nat) (h : d < 16) : hexVal (hexDigit d) = some d := by
  interval_cases d <;> rfl

theorem unquoteLoop_ascii (fd b0 : Nat) (x : GoString) (h : b0 < 0x80) :
    unquoteLoop (fd + 1) (escapeByte b0 ++ x) = emit [b0] (unquoteLoop fd x) := by
  interval_cases b0 <;> rfl

/-- The six-byte escape of an ASCII byte decodes to that byte, whichever
bytes the encoder chooses to write in this form. -/
theorem unquoteLoop_unicodeEscape (fd b0 : Nat) (x : GoString) (h : b0 < 0x80) :
    unquoteLoop (fd + 1)
        ([0x5C, 0x75, 0x30, 0x30, hexDigit (b0 / 16), hexDigit (b0 % 16)] ++ x) =
      emit [b0] (unquoteLoop fd x) := by
  interval_cases b0 <;> rfl

theorem unquoteLoop_two (fd b0 b1 : Nat) (x : GoString) (h0 : 0xC2 ≤ b0) (h0' : b0 ≤ 0xDF)
    (h1 : 0x80 ≤ b1) (h1' : b1 ≤ 0xBF) :
    unquoteLoop (fd + 1) (b0 :: b1 :: x) = emit [b0, b1] (unquoteLoop fd x) := by
  rw [unquoteLoop, if_neg (by omega), if_neg (by omega), if_neg (by omega), if_neg (by omega)]
  simp only [decodeRune_two b0 b1 x h0 h0' h1 h1', encodeRune_two b0 b1 h0 h0' h1 h1']
  rfl

theorem unquoteLoop_three (fd b0 b1 b2 : Nat) (x : GoString)
    (h0 : 0xE0 ≤ b0) (h0' : b0 ≤ 0xEF)
    (h1 : (if b0 = 0xE0 then 0xA0 else 0x80) ≤ b1)
    (h1' : b1 ≤ (if b0 = 0xED then 0x9F else 0xBF))
    (h2 : 0x80 ≤ b2) (h2' : b2 ≤ 0xBF) :
    unquoteLoop (fd + 1) (b0 :: b1 :: b2 :: x) = emit [b0, b1, b2] (unquoteLoop fd x) := by
  rw [unquoteLoop, if_neg (by omega), if_neg (by omega), if_neg (by omega), if_neg (by omega)]
  simp only [decodeRune_three b0 b1 b2 x h0 h0' h1 h1' h2 h2',
    encodeRune_three b0 b1 b2 h0 h0' h1 h1' h2 h2']
  rfl

theorem unquoteLoop_four (fd b0 b1 b2 b3 : Nat) (x : GoString)
    (h0 : 0xF0 ≤ b0) (h0' : b0 ≤ 0xF4)
    (h1 : (if b0 = 0xF0 then 0x90 else 0x80) ≤ b1)
    (h1' : b1 ≤ (if b0 = 0xF4 then 0x8F else 0xBF))
    (h2 : 0x80 ≤ b2) (h2' : b2 ≤ 0xBF) (h3 : 0x80 ≤ b3) (h3' : b3 ≤ 0xBF) :
    unquoteLoop (fd + 1) (b0 :: b1 :: b2 :: b3 :: x) =
      emit [b0, b1, b2, b3] (unquoteLoop fd x) := by
  rw [unquoteLoop, if_neg (by omega), if_neg (by omega), if_neg (by omega), if_neg (by omega)]
  simp only [decodeRune_four b0 b1 b2 b3 x h0 h0' h1 h1' h2 h2' h3 h3',
    encodeRune_four b0 b1 b2 b3 h0 h0' h1 h1' h2 h2' h3 h3']
  rfl

theorem unquoteLoop_lineSep (fd : Nat) (x : GoString) :
    unquoteLoop (fd + 1) ([0x5C, 0x75, 0x32, 0x30, 0x32, 0x38] ++ x) =
      emit [0xE2, 0x80, 0xA8] (unquoteLoop fd x) := by
  rfl

theorem unquoteLoop_paraSep (fd : Nat) (x : GoString) :
    unquoteLoop (fd + 1) ([0x5C, 0x75, 0x32, 0x30, 0x32, 0x39] ++ x) =
      emit [0xE2, 0x80, 0xA9] (unquoteLoop fd x) := by
  rfl

theorem emit_some (bytes s rest : GoString) :
    emit bytes (some (s, rest)) = some (bytes ++ s, rest) := rfl

theorem escapeByte_length_pos (b : Nat) : 1 ≤ (escapeByte b).length := by
  unfold escapeByte
  split_ifs <;> simp

/-- Decoding the escaped body of a valid string, followed by the closing
quote, gives the string back and stops right after the quote. -/
theorem unquoteLoop_appendStringLoop (n : Nat) :
    ∀ (s : GoString), s.length ≤ n → validUTF8 s = true →
      ∀ (f fd : Nat) (tail : GoString), s.length ≤ f →
        (appendStringLoop f s).length + 1 ≤ fd →
        unquoteLoop fd (appendStringLoop f s ++ 0x22 :: tail) = some (s, tail) := by
  induction n with
  | zero =>
    intro s hs _ f fd tail _ hfd
    have : s = [] := List.length_eq_zero.mp (by omega)
    subst this
    obtain ⟨fd, rfl⟩ : ∃ k, fd = k + 1 := ⟨fd - 1, by omega⟩
    rw [appendStringLoop_nil]
    rfl
  | succ n ih =>
    intro s hs hv f fd tail hf hfd
    obtain ⟨fd, rfl⟩ : ∃ k, fd = k + 1 := ⟨fd - 1, by omega⟩
    rcases validUTF8_cases s hv with h | ⟨b0, t, rfl, h0, ht⟩ | ⟨b0, b1, t, rfl, h0, h0', h1, h1', ht⟩ |
      ⟨b0, b1, b2, t, rfl, h0, h0', h1, h1', h2, h2', ht⟩ |
      ⟨b0, b1, b2, b3, t, rfl, h0, h0', h1, h1', h2, h2', h3, h3', ht⟩
    · subst h
      rw [appendStringLoop_nil]
      rfl
    · simp only [List.length_cons] at hs hf
      obtain ⟨f, rfl⟩ : ∃ k, f = k + 1 := ⟨f - 1, by omega⟩
      rw [appendStringLoop_ascii f b0 t h0] at hfd ⊢
      have hl := escapeByte_length_pos b0
      simp only [List.length_append] at hfd
      rw [List.append_assoc, unquoteLoop_ascii fd b0 _ h0,
        ih t (by omega) ht f fd tail (by omega) (by omega)]
      rfl
    · simp only [List.length_cons] at hs hf
      obtain ⟨f, rfl⟩ : ∃ k, f = k + 1 := ⟨f - 1, by omega⟩
      rw [appendStringLoop_two f b0 b1 t h0 h0' h1 h1'] at hfd ⊢
      simp only [List.length_append, List.length_cons, List.length_nil] at hfd
      show unquoteLoop (fd + 1) (b0 :: b1 :: (appendStringLoop f t ++ 0x22 :: tail)) = _
      rw [unquoteLoop_two fd b0 b1 _ h0 h0' h1 h1',
        ih t (by omega) ht f fd tail (by omega) (by omega)]
      rfl
    · simp only [List.length_cons] at hs hf
      obtain ⟨f, rfl⟩ : ∃ k, f = k + 1 := ⟨f - 1, by omega⟩
      rw [appendStringLoop_three f b0 b1 b2 t h0 h0' h1 h1' h2 h2'] at hfd ⊢
      by_cases hls : b0 = 0xE2 ∧ b1 = 0x80 ∧ (b2 = 0xA8 ∨ b2 = 0xA9)
      · rw [if_pos hls] at hfd ⊢
        simp only [List.length_append, List.length_cons, List.length_nil] at hfd
        rw [List.append_assoc]
        obtain ⟨rfl, rfl, rfl | rfl⟩ := hls
        · rw [show (168 : Nat) - 0x70 = 0x38 from rfl, unquoteLoop_lineSep,
            ih t (by omega) ht f fd tail (by omega) (by omega)]
          rfl
        · rw [show (169 : Nat) - 0x70 = 0x39 from rfl, unquoteLoop_paraSep,
            ih t (by omega) ht f fd tail (by omega) (by omega)]
          rfl
      · rw [if_neg hls] at hfd ⊢
        simp only [List.length_append, List.length_cons, List.length_nil] at hfd
        show unquoteLoop (fd + 1) (b0 :: b1 :: b2 :: (appendStringLoop f t ++ 0x22 :: tail)) = _
        rw [unquoteLoop_three fd b0 b1 b2 _ h0 h0' h1 h1' h2 h2',
          ih t (by omega) ht f fd tail (by omega) (by omega)]
        rfl
    · simp only [List.length_cons] at hs hf
      obtain ⟨f, rfl⟩ : ∃ k, f = k + 1 := ⟨f - 1, by omega⟩
      rw [appendStringLoop_four f b0 b1 b2 b3 t h0 h0' h1 h1' h2 h2' h3 h3'] at hfd ⊢
      simp only [List.length_append, List.length_cons, List.length_nil] at hfd
      show unquoteLoop (fd + 1)
        (b0 :: b1 :: b2 :: b3 :: (appendStringLoop f t ++ 0x22 :: tail)) = _
      rw [unquoteLoop_four fd b0 b1 b2 b3 _ h0 h0' h1 h1' h2 h2' h3 h3',
        ih t (by omega) ht f fd tail (by omega) (by omega)]
      rfl

/-- The bound on the iterations of `appendString` is never reached: any
bound of at least `len(src)` gives the same output. -/
theorem appendStringLoop_fuel (n : Nat) :
    ∀ (s : GoString) (f : Nat), s.length ≤ n → s.length ≤ f →
      appendStringLoop f s = appendStringLoop s.length s := by
  induction n with
  | zero =>
    intro s f hs _
    have : s = [] := List.length_eq_zero.mp (by omega)
    subst this
    rw [appendStringLoop_nil, appendStringLoop_nil]
  | succ n ih =>
    intro s f hs hf
    match s, hs, hf with
    | [], _, _ => rw [appendStringLoop_nil, appendStringLoop_nil]
    | b :: rest, hs, hf =>
      simp only [List.length_cons] at hs hf ⊢
      obtain ⟨f, rfl⟩ : ∃ k, f = k + 1 := ⟨f - 1, by omega⟩
      have hd : ∀ k, (rest.drop k).length ≤ rest.length := by
        intro k; rw [List.length_drop]; omega
      have e1 : ∀ k, appendStringLoop f (rest.drop k) = appendStringLoop rest.length (rest.drop k) := by
        intro k
        rw [ih (rest.drop k) f (by have := hd k; omega) (by have := hd k; omega),
          ih (rest.drop k) rest.length (by have := hd k; omega) (hd k)]
      have e0 := e1 0
      simp only [List.drop_zero] at e0
      rw [appendStringLoop, appendStringLoop]
      simp only [e1, e0]

/-! ## JSON objects with string members -/

theorem parseString_appendString (s tail : GoString) (hv : validUTF8 s = true) :
    parseString (appendString s ++ tail) = some (s, tail) := by
  have e : appendString s ++ tail = 0x22 :: (appendStringLoop s.length s ++ 0x22 :: tail) := by
    simp [appendString]
  rw [e, parseString, if_pos rfl]
  exact unquoteLoop_appendStringLoop s.length s (le_refl _) hv s.length _ tail (le_refl _)
    (by simp)

theorem skipSpace_appendString (s x : GoString) :
    skipSpace (appendString s ++ x) = appendString s ++ x := by
  rfl

theorem skipSpace_spaces (k : Nat) (x : GoString) :
    skipSpace (List.replicate k 0x20 ++ x) = skipSpace x := by
  induction k with
  | zero => rfl
  | succ k ih =>
    rw [List.replicate_succ, List.cons_append, skipSpace, if_pos (by decide), ih]

theorem skipSpace_newline (d : Nat) (x : GoString) :
    skipSpace (newline d ++ x) = skipSpace x := by
  rw [newline, List.cons_append, skipSpace, if_pos (by decide), skipSpace_spaces]

theorem parseMembers_comma (fuel : Nat) (s k s1 s2 v s3 s4 : GoString)
    (h1 : parseString (skipSpace s) = some (k, s1)) (h2 : skipSpace s1 = 0x3A :: s2)
    (h3 : parseString (skipSpace s2) = some (v, s3)) (h4 : skipSpace s3 = 0x2C :: s4) :
    parseMembers (fuel + 1) s =
      (parseMembers fuel s4).map (fun r => ((k, v) :: r.1, r.2)) := by
  rw [parseMembers]
  simp [h1, h2, h3, h4]

theorem parseMembers_close (fuel : Nat) (s k s1 s2 v s3 s4 : GoString)
    (h1 : parseString (skipSpace s) = some (k, s1)) (h2 : skipSpace s1 = 0x3A :: s2)
    (h3 : parseString (skipSpace s2) = some (v, s3)) (h4 : skipSpace s3 = 0x7D :: s4) :
    parseMembers (fuel + 1) s = some ([(k, v)], s4) := by
  rw [parseMembers]
  simp [h1, h2, h3, h4]

theorem parseObject_members (s s1 s3 : GoString) (ms : List (GoString × GoString))
    (h1 : skipSpace s = 0x7B :: s1) (h2 : ∃ x, skipSpace s1 = 0x22 :: x)
    (h3 : parseMembers s1.length s1 = some (ms, s3)) (h4 : skipSpace s3 = []) :
    parseObject s = some ms := by
  obtain ⟨x, hx⟩ := h2
  unfold parseObject
  simp [h1, hx, h3, h4]

theorem compactMembers_cons (k v : GoString) (rest : List (GoString × GoString)) :
    compactMembers (strMembers ((k, v) :: rest)) =
      appendString k ++ (0x3A :: (appendString v ++
        ((if rest.isEmpty then [] else [0x2C]) ++ compactMembers (strMembers rest)))) := by
  simp [strMembers, compactMembers, JSON.compact]

theorem indentMembers_cons (d : Nat) (k v : GoString) (rest : List (GoString × GoString)) :
    indentMembers d (strMembers ((k, v) :: rest)) =
      appendString k ++ (0x3A :: 0x20 :: (appendString v ++
        ((if rest.isEmpty then [] else 0x2C :: newline d) ++
          indentMembers d (strMembers rest)))) := by
  simp [strMembers, indentMembers, JSON.indent]

theorem parseMembers_compact (rest : List (GoString × GoString)) :
    ∀ (p : GoString × GoString) (fuel : Nat) (tail : GoString),
      (∀ q ∈ p :: rest, validUTF8 q.1 = true ∧ validUTF8 q.2 = true) → rest.length + 1 ≤ fuel →
      parseMembers fuel (compactMembers (strMembers (p :: rest)) ++ 0x7D :: tail) =
        some (p :: rest, tail) := by
  induction rest with
  | nil =>
    intro p fuel tail hv hf
    obtain ⟨k, v⟩ := p
    obtain ⟨fuel, rfl⟩ : ∃ n, fuel = n + 1 := ⟨fuel - 1, by omega⟩
    have hk := hv (k, v) (List.mem_cons_self _ _)
    have e : compactMembers (strMembers []) = [] := rfl
    rw [compactMembers_cons, e]
    simp only [List.isEmpty_nil, if_true, List.nil_append, List.append_assoc, List.cons_append,
      List.append_nil]
    refine parseMembers_close fuel _ k (0x3A :: (appendString v ++ 0x7D :: tail))
      (appendString v ++ 0x7D :: tail) v (0x7D :: tail) tail ?_ rfl ?_ rfl
    · rw [skipSpace_appendString, parseString_appendString _ _ hk.1]
    · rw [skipSpace_appendString, parseString_appendString _ _ hk.2]
  | cons q rest ih =>
    intro p fuel tail hv hf
    obtain ⟨k, v⟩ := p
    obtain ⟨fuel, rfl⟩ : ∃ n, fuel = n + 1 := ⟨fuel - 1, by omega⟩
    have hk := hv (k, v) (List.mem_cons_self _ _)
    rw [compactMembers_cons]
    simp only [List.isEmpty_cons, Bool.false_eq_true, if_false, List.append_assoc,
      List.cons_append, List.nil_append]
    rw [parseMembers_comma fuel _ k
      (0x3A :: (appendString v ++
        0x2C :: (compactMembers (strMembers (q :: rest)) ++ 0x7D :: tail)))
      (appendString v ++ 0x2C :: (compactMembers (strMembers (q :: rest)) ++ 0x7D :: tail)) v
      (0x2C :: (compactMembers (strMembers (q :: rest)) ++ 0x7D :: tail))
      (compactMembers (strMembers (q :: rest)) ++ 0x7D :: tail) ?_ rfl ?_ rfl]
    · rw [ih q fuel tail (fun x hx => hv x (List.mem_cons_of_mem _ hx))
        (by simp only [List.length_cons] at hf; omega)]
      rfl
    · rw [skipSpace_appendString, parseString_appendString _ _ hk.1]
    · rw [skipSpace_appendString, parseString_appendString _ _ hk.2]

theorem parseMembers_indent (d d1 : Nat) (rest : List (GoString × GoString)) :
    ∀ (p : GoString × GoString) (fuel : Nat) (s tail : GoString),
      (∀ q ∈ p :: rest, validUTF8 q.1 = true ∧ validUTF8 q.2 = true) → rest.length + 1 ≤ fuel →
      skipSpace s = indentMembers d (strMembers (p :: rest)) ++ (newline d1 ++ 0x7D :: tail) →
      parseMembers fuel s = some (p :: rest, tail) := by
  induction rest with
  | nil =>
    intro p fuel s tail hv hf hs
    obtain ⟨k, v⟩ := p
    obtain ⟨fuel, rfl⟩ : ∃ n, fuel = n + 1 := ⟨fuel - 1, by omega⟩
    have hk := hv (k, v) (List.mem_cons_self _ _)
    have e : indentMembers d (strMembers []) = [] := rfl
    rw [indentMembers_cons, e] at hs
    simp only [List.isEmpty_nil, if_true, List.nil_append, List.append_assoc,
      List.cons_append, List.append_nil] at hs
    refine parseMembers_close fuel s k
      (0x3A :: 0x20 :: (appendString v ++ (newline d1 ++ 0x7D :: tail)))
      (0x20 :: (appendString v ++ (newline d1 ++ 0x7D :: tail))) v
      (newline d1 ++ 0x7D :: tail) tail ?_ rfl ?_ ?_
    · rw [hs, parseString_appendString _ _ hk.1]
    · rw [skipSpace, if_pos (by decide), skipSpace_appendString,
        parseString_appendString _ _ hk.2]
    · rw [skipSpace_newline]
      rfl
  | cons q rest ih =>
    intro p fuel s tail hv hf hs
    obtain ⟨k, v⟩ := p
    obtain ⟨fuel, rfl⟩ : ∃ n, fuel = n + 1 := ⟨fuel - 1, by omega⟩
    have hk := hv (k, v) (List.mem_cons_self _ _)
    rw [indentMembers_cons] at hs
    simp only [List.isEmpty_cons, Bool.false_eq_true, if_false, List.append_assoc,
      List.cons_append, List.nil_append] at hs
    rw [parseMembers_comma fuel s k
      (0x3A :: 0x20 :: (appendString v ++ 0x2C :: (newline d ++
        (indentMembers d (strMembers (q :: rest)) ++ (newline d1 ++ 0x7D :: tail)))))
      (0x20 :: (appendString v ++ 0x2C :: (newline d ++
        (indentMembers d (strMembers (q :: rest)) ++ (newline d1 ++ 0x7D :: tail))))) v
      (0x2C :: (newline d ++ (indentMembers d (strMembers (q :: rest)) ++
        (newline d1 ++ 0x7D :: tail))))
      (newline d ++ (indentMembers d (strMembers (q :: rest)) ++
        (newline d1 ++ 0x7D :: tail))) ?_ rfl ?_ rfl]
    · rw [ih q fuel _ tail (fun x hx => hv x (List.mem_cons_of_mem _ hx))
        (by simp only [List.length_cons] at hf; omega) ?_]
      · rfl
      · rw [skipSpace_newline]
        obtain ⟨k1, v1⟩ := q
        rw [indentMembers_cons, List.append_assoc, skipSpace_appendString]
    · rw [hs, parseString_appendString _ _ hk.1]
    · rw [skipSpace, if_pos (by decide), skipSpace_appendString,
        parseString_appendString _ _ hk.2]

theorem compactMembers_length (kvs : List (GoString × GoString)) :
    kvs.length ≤ (compactMembers (strMembers kvs)).length := by
  induction kvs with
  | nil => simp
  | cons p rest ih =>
    obtain ⟨k, v⟩ := p
    rw [compactMembers_cons]
    simp only [List.length_append, List.length_cons, appendString]
    omega

theorem indentMembers_length (d : Nat) (kvs : List (GoString × GoString)) :
    kvs.length ≤ (indentMembers d (strMembers kvs)).length := by
  induction kvs with
  | nil => simp
  | cons p rest ih =>
    obtain ⟨k, v⟩ := p
    rw [indentMembers_cons]
    simp only [List.length_append, List.length_cons, appendString]
    omega

/-- Decoding the compact encoding of an object with string members gives the
members back. -/
theorem parseObject_Marshal (p : GoString × GoString) (rest : List (GoString × GoString))
    (hv : ∀ q ∈ p :: rest, validUTF8 q.1 = true ∧ validUTF8 q.2 = true) :
    parseObject (Marshal (.obj (strMembers (p :: rest)))) = some (p :: rest) := by
  have e : Marshal (.obj (strMembers (p :: rest))) =
      0x7B :: (compactMembers (strMembers (p :: rest)) ++ 0x7D :: []) := by
    simp [Marshal, JSON.compact]
  rw [e]
  refine parseObject_members _ _ [] _ rfl ?_ ?_ rfl
  · obtain ⟨k, v⟩ := p
    rw [compactMembers_cons]
    exact ⟨_, rfl⟩
  · refine parseMembers_compact rest p _ [] hv ?_
    have := compactMembers_length (p :: rest)
    simp only [List.length_append, List.length_cons] at this ⊢
    omega

/-- Decoding the indented encoding of an object with string members gives
the members back. -/
theorem parseObject_MarshalIndent (p : GoString × GoString)
    (rest : List (GoString × GoString))
    (hv : ∀ q ∈ p :: rest, validUTF8 q.1 = true ∧ validUTF8 q.2 = true) :
    parseObject (MarshalIndent (.obj (strMembers (p :: rest)))) = some (p :: rest) := by
  have e : MarshalIndent (.obj (strMembers (p :: rest))) =
      0x7B :: (newline 1 ++ (indentMembers 1 (strMembers (p :: rest)) ++
        (newline 0 ++ 0x7D :: []))) := by
    simp [MarshalIndent, JSON.indent, strMembers]
  rw [e]
  have hsk : skipSpace (newline 1 ++ (indentMembers 1 (strMembers (p :: rest)) ++
      (newline 0 ++ 0x7D :: []))) =
      indentMembers 1 (strMembers (p :: rest)) ++ (newline 0 ++ 0x7D :: []) := by
    rw [skipSpace_newline]
    obtain ⟨k, v⟩ := p
    rw [indentMembers_cons, List.append_assoc, skipSpace_appendString]
  refine parseObject_members _ _ [] _ rfl ?_ ?_ rfl
  · rw [hsk]
    obtain ⟨k, v⟩ := p
    rw [indentMembers_cons]
    exact ⟨_, rfl⟩
  · refine parseMembers_indent 1 0 rest p _ _ [] hv ?_ hsk
    have := indentMembers_length 1 (p :: rest)
    simp only [List.length_append, List.length_cons] at this ⊢
    omega

/-! ## C2: the JSON round trip of `BuildInfo` -/

theorem CliTool.BuildInfo.toJSON_eq (b : CliTool.BuildInfo) :
    b.toJSON = .obj (strMembers [(str "version", b.Version), (str "commit", b.Commit),
      (str "build_date", b.BuildDate), (str "go_version", b.GoVersion),
      (str "platform", b.Platform)]) := rfl

theorem CliTool.BuildInfo.setField_all (b dst : CliTool.BuildInfo) :
    [(str "version", b.Version), (str "commit", b.Commit), (str "build_date", b.BuildDate),
      (str "go_version", b.GoVersion), (str "platform", b.Platform)].foldlM
        CliTool.BuildInfo.setField dst = some b := by
  rfl

theorem CliTool.BuildInfo.members_valid (b : CliTool.BuildInfo)
    (h1 : validUTF8 b.Version = true) (h2 : validUTF8 b.Commit = true)
    (h3 : validUTF8 b.BuildDate = true) (h4 : validUTF8 b.GoVersion = true)
    (h5 : validUTF8 b.Platform = true) :
    ∀ q ∈ [(str "version", b.Version), (str "commit", b.Commit), (str "build_date", b.BuildDate),
      (str "go_version", b.GoVersion), (str "platform", b.Platform)],
      validUTF8 q.1 = true ∧ validUTF8 q.2 = true := by
  intro q hq
  simp only [List.mem_cons, List.mem_singleton, List.not_mem_nil, or_false] at hq
  rcases hq with rfl | rfl | rfl | rfl | rfl
  · exact ⟨(by decide : validUTF8 (str "version") = true), h1⟩
  · exact ⟨(by decide : validUTF8 (str "commit") = true), h2⟩
  · exact ⟨(by decide : validUTF8 (str "build_date") = true), h3⟩
  · exact ⟨(by decide : validUTF8 (str "go_version") = true), h4⟩
  · exact ⟨(by decide : validUTF8 (str "platform") = true), h5⟩

/-- C2 as stated fails: a `BuildInfo` whose `Version` is the single byte
0xFF (a Go string that is not valid UTF-8) is encoded with that byte replaced
by the escape of U+FFFD, and decoding the emitted JSON, compact or indented,
yields a record whose `Version` is the three bytes EF BF BD, not the
original. -/
theorem C2_roundtrip_counterexample :
    CliTool.BuildInfo.Unmarshal
        (Marshal (CliTool.BuildInfo.toJSON
          ⟨[0xFF], str "abc123", str "2023-10-01", str "go1.21.0", str "linux/amd64"⟩))
        ⟨[], [], [], [], []⟩ =
      some ⟨[0xEF, 0xBF, 0xBD], str "abc123", str "2023-10-01", str "go1.21.0",
        str "linux/amd64"⟩ ∧
    CliTool.BuildInfo.Unmarshal
        (MarshalIndent (CliTool.BuildInfo.toJSON
          ⟨[0xFF], str "abc123", str "2023-10-01", str "go1.21.0", str "linux/amd64"⟩))
        ⟨[], [], [], [], []⟩ =
      some ⟨[0xEF, 0xBF, 0xBD], str "abc123", str "2023-10-01", str "go1.21.0",
        str "linux/amd64"⟩ ∧
    (⟨[0xEF, 0xBF, 0xBD], str "abc123", str "2023-10-01", str "go1.21.0",
        str "linux/amd64"⟩ : CliTool.BuildInfo) ≠
      ⟨[0xFF], str "abc123", str "2023-10-01", str "go1.21.0", str "linux/amd64"⟩ ∧
    isBytes [0xFF] = true ∧ validUTF8 [0xFF] = false := by
  refine ⟨?_, ?_, ?_, ?_, ?_⟩
  · decide
  · decide
  · decide
  · decide
  · decide

/-- C2 (amended): JSON output round-trips for every `BuildInfo` whose five
strings are valid UTF-8: decoding the compact encoding (`json.Marshal`) and
decoding the indented encoding (`json.MarshalIndent`, as printed by
`--version --json`) both succeed and yield a record equal to the source in
every field, whatever the destination held before. -/
theorem C2_roundtrip_valid_utf8 (b dst : CliTool.BuildInfo)
    (h1 : validUTF8 b.Version = true) (h2 : validUTF8 b.Commit = true)
    (h3 : validUTF8 b.BuildDate = true) (h4 : validUTF8 b.GoVersion = true)
    (h5 : validUTF8 b.Platform = true) :
    CliTool.BuildInfo.Unmarshal (Marshal b.toJSON) dst = some b ∧
    CliTool.BuildInfo.Unmarshal (MarshalIndent b.toJSON) dst = some b := by
  have hv := CliTool.BuildInfo.members_valid b h1 h2 h3 h4 h5
  constructor
  · unfold CliTool.BuildInfo.Unmarshal
    rw [CliTool.BuildInfo.toJSON_eq, parseObject_Marshal _ _ hv]
    exact CliTool.BuildInfo.setField_all b dst
  · unfold CliTool.BuildInfo.Unmarshal
    rw [CliTool.BuildInfo.toJSON_eq, parseObject_MarshalIndent _ _ hv]
    exact CliTool.BuildInfo.setField_all b dst

/-- C2 (amended) at the `BuildInfo` of `TestBuildInfo`. -/
theorem C2_roundtrip_witness :
    CliTool.BuildInfo.Unmarshal
        (Marshal (CliTool.BuildInfo.toJSON
          ⟨str "1.0.0", str "abc123", str "2023-10-01", str "go1.21.0", str "linux/amd64"⟩))
        ⟨[], [], [], [], []⟩ =
      some ⟨str "1.0.0", str "abc123", str "2023-10-01", str "go1.21.0", str "linux/amd64"⟩ :=
  (C2_roundtrip_valid_utf8
    ⟨str "1.0.0", str "abc123", str "2023-10-01", str "go1.21.0", str "linux/amd64"⟩
    ⟨[], [], [], [], []⟩ (by decide) (by decide) (by decide) (by decide) (by decide)).1

/-! ## repeat -/

theorem CliTool.repeatLoop_eq (s : GoString) (count : Int) (k : Nat) :
    ∀ (i : Int) (result : GoString), (count - i).toNat = k →
      CliTool.repeatLoop s count i result = result ++ (List.replicate k s).flatten := by
  induction k with
  | zero =>
    intro i result h
    rw [CliTool.repeatLoop, if_neg (by omega)]
    simp
  | succ k ih =>
    intro i result h
    rw [CliTool.repeatLoop, if_pos (by omega), ih (i + 1) (result ++ s) (by omega)]
    simp [List.replicate_succ]

theorem CliTool.repeat_eq (s : GoString) (n : Int) :
    CliTool.repeat s n = (List.replicate n.toNat s).flatten := by
  unfold CliTool.repeat
  rw [CliTool.repeatLoop_eq s n n.toNat 0 [] (by simp)]
  simp

theorem flatten_replicate_length (s : GoString) (k : Nat) :
    ((List.replicate k s).flatten).length = k * s.length := by
  induction k with
  | zero => simp
  | succ k ih => simp [List.replicate_succ, ih]; ring

theorem flatten_replicate_add (s : GoString) (a b : Nat) :
    (List.replicate (a + b) s).flatten =
      (List.replicate a s).flatten ++ (List.replicate b s).flatten := by
  rw [List.replicate_add, List.flatten_append]

/-- C1: for every string `s` and count `n >= 0`, `repeat(s, n)` is the
concatenation of exactly `n` copies of `s`; in particular `repeat(s, 0)` is
the empty string. -/
theorem C1_repeat_is_n_copies (s : GoString) (n : Int) (h : 0 ≤ n) :
    (∃ k : Nat, (k : Int) = n ∧ CliTool.repeat s n = (List.replicate k s).flatten) ∧
      CliTool.repeat s 0 = [] := by
  refine ⟨⟨n.toNat, by omega, CliTool.repeat_eq s n⟩, ?_⟩
  rw [CliTool.repeat_eq]; simp

/-- C1 at the inputs of `TestRepeatFunction`. -/
theorem C1_repeat_witness :
    CliTool.repeat (str "=") 5 = str "=====" ∧ CliTool.repeat (str "a") 0 = str "" ∧
      CliTool.repeat (str "test") 2 = str "testtest" := by
  obtain ⟨⟨k1, hk1, h1⟩, _⟩ := C1_repeat_is_n_copies (str "=") 5 (by decide)
  obtain ⟨_, h2⟩ := C1_repeat_is_n_copies (str "a") 0 (by decide)
  obtain ⟨⟨k3, hk3, h3⟩, _⟩ := C1_repeat_is_n_copies (str "test") 2 (by decide)
  have e1 : k1 = 5 := by omega
  have e3 : k3 = 2 := by omega
  subst e1 e3
  refine ⟨h1.trans (by decide), h2.trans (by decide), h3.trans (by decide)⟩

/-- C9: `repeat` returns on every integer count: it is the empty string for
every count `n <= 0`, it is additive on non-negative counts, its length in
bytes is `max(n, 0) * len(s)`, and the rule under the demo header,
`"=" + repeat("=", 45)`, is a run of exactly 46 equals signs. -/
theorem C9_repeat_total_additive (s : GoString) :
    (∀ n : Int, n ≤ 0 → CliTool.repeat s n = []) ∧
    (∀ a b : Int, 0 ≤ a → 0 ≤ b →
      CliTool.repeat s (a + b) = CliTool.repeat s a ++ CliTool.repeat s b) ∧
    (∀ n : Int, ((CliTool.repeat s n).length : Int) = max n 0 * (s.length : Int)) ∧
    str "=" ++ CliTool.repeat (str "=") 45 = List.replicate 46 0x3D := by
  refine ⟨?_, ?_, ?_, ?_⟩
  · intro n hn
    rw [CliTool.repeat_eq, Int.toNat_of_nonpos hn]; simp
  · intro a b ha hb
    rw [CliTool.repeat_eq, CliTool.repeat_eq, CliTool.repeat_eq, Int.toNat_add ha hb,
      flatten_replicate_add]
  · intro n
    rw [CliTool.repeat_eq, flatten_replicate_length]
    push_cast
    rw [Int.toNat_eq_max]
  · rw [CliTool.repeat_eq]; decide

/-- C9 at a negative count, at a sum of counts and at a three-byte string. -/
theorem C9_repeat_witness :
    CliTool.repeat (str "ab") (-3) = [] ∧
      CliTool.repeat (str "ab") (1 + 2) = CliTool.repeat (str "ab") 1 ++ CliTool.repeat (str "ab") 2 ∧
      ((CliTool.repeat (str "€") 2).length : Int) = 6 :=
  ⟨(C9_repeat_total_additive (str "ab")).1 (-3) (by decide),
    (C9_repeat_total_additive (str "ab")).2.1 1 2 (by decide) (by decide),
    ((C9_repeat_total_additive (str "€")).2.2.1 2).trans (by decide)⟩

/-! ## Environment defaults -/

theorem Getenv_unset (env : Environ) (key : GoString) (h : env key = none) :
    Getenv env key = [] := by
  simp [Getenv, h]

/-- C3: a missing environment variable yields the documented default and
never a failure: with `VERSION` unset `getVersion` returns "1.0.0", with
`ENVIRONMENT` unset `getEnvironment` returns "development", and with `PORT`
unset the listen port is "8080" (the listen address ":8080"). -/
theorem C3_missing_variables_yield_defaults (env : Environ) :
    (env (str "VERSION") = none → Microservice.getVersion env = str "1.0.0") ∧
    (env (str "ENVIRONMENT") = none → Microservice.getEnvironment env = str "development") ∧
    (env (str "PORT") = none →
      Microservice.port env = str "8080" ∧ Microservice.listenAddr env = str ":8080") := by
  refine ⟨fun h => ?_, fun h => ?_, fun h => ?_⟩
  · simp [Microservice.getVersion, Getenv_unset env _ h]
  · simp [Microservice.getEnvironment, Getenv_unset env _ h]
  · have hp : Microservice.port env = str "8080" := by
      simp [Microservice.port, Getenv_unset env _ h]
    refine ⟨hp, ?_⟩
    rw [Microservice.listenAddr, hp]
    decide

/-- C3 in the empty environment. -/
theorem C3_defaults_witness :
    Microservice.getVersion (fun _ => none) = str "1.0.0" ∧
      Microservice.getEnvironment (fun _ => none) = str "development" ∧
      Microservice.port (fun _ => none) = str "8080" :=
  ⟨(C3_missing_variables_yield_defaults (fun _ => none)).1 rfl,
    (C3_missing_variables_yield_defaults (fun _ => none)).2.1 rfl,
    ((C3_missing_variables_yield_defaults (fun _ => none)).2.2 rfl).1⟩

/-- C8: `getVersion` and `getEnvironment` treat a variable set to the empty
string like an unset one and return every non-empty value unchanged; neither
ever returns the empty string. -/
theorem C8_empty_value_is_unset (env : Environ) :
    Microservice.getVersion env =
        (match env (str "VERSION") with
         | some v => if v = [] then str "1.0.0" else v
         | none => str "1.0.0") ∧
    Microservice.getEnvironment env =
        (match env (str "ENVIRONMENT") with
         | some v => if v = [] then str "development" else v
         | none => str "development") ∧
    Microservice.getVersion env ≠ [] ∧ Microservice.getEnvironment env ≠ [] := by
  have h1 : str "1.0.0" ≠ [] := by decide
  have h2 : str "development" ≠ [] := by decide
  refine ⟨?_, ?_, ?_, ?_⟩
  · unfold Microservice.getVersion Getenv
    cases env (str "VERSION") <;> simp
  · unfold Microservice.getEnvironment Getenv
    cases env (str "ENVIRONMENT") <;> simp
  · unfold Microservice.getVersion
    simp only
    split
    · exact h1
    · assumption
  · unfold Microservice.getEnvironment
    simp only
    split
    · exact h2
    · assumption

/-! ## Payloads -/

theorem Microservice.ready_checks (world : Microservice.World) :
    mapGet (Microservice.ready world) (str "checks") = some (.stringMap
      [(str "database", str "connected"), (str "external_apis", str "available"),
        (str "cache", str "healthy")]) := by
  rfl

/-- C7 as stated fails: in the empty environment the `checks` map of the
readiness payload holds the value "available" (under `external_apis`), which
is neither "connected" nor "healthy". -/
theorem C7_checks_counterexample :
    mapGet (Microservice.ready ⟨fun _ => none, ⟨0⟩⟩) (str "checks") =
      some (.stringMap [(str "database", str "connected"),
        (str "external_apis", str "available"), (str "cache", str "healthy")]) ∧
    (str "external_apis", str "available") ∈
      [(str "database", str "connected"), (str "external_apis", str "available"),
        (str "cache", str "healthy")] ∧
    str "available" ≠ str "connected" ∧ str "available" ≠ str "healthy" := by
  refine ⟨rfl, by decide, by decide, by decide⟩

/-- C7 (amended): the readiness payload performs no dependency check: for
every request and every environment the payload built by `readinessHandler`
has status "ready" and a `checks` map that is the same in every world, with
all values among the hardcoded strings "connected", "available" and
"healthy"; the handler does not depend on the request. -/
theorem C7_readiness_is_hardcoded (lib : TimeLib) (world world1 : Microservice.World)
    (w : ResponseWriter) (r r1 : Request) :
    mapGet (Microservice.ready world) (str "status") = some (.string (str "ready")) ∧
    (∃ m : List (GoString × GoString),
      mapGet (Microservice.ready world) (str "checks") = some (.stringMap m) ∧
      m.map (fun p => p.1) = [str "database", str "external_apis", str "cache"] ∧
      ∀ p ∈ m, p.2 = str "connected" ∨ p.2 = str "available" ∨ p.2 = str "healthy") ∧
    mapGet (Microservice.ready world1) (str "checks") =
      mapGet (Microservice.ready world) (str "checks") ∧
    Microservice.readinessHandler lib world w r1 = Microservice.readinessHandler lib world w r := by
  refine ⟨rfl, ⟨_, Microservice.ready_checks world, by decide, by decide⟩, ?_, rfl⟩
  rw [Microservice.ready_checks, Microservice.ready_checks]

/-- C7 (amended) in the empty environment: the payload's status. -/
theorem C7_readiness_witness :
    mapGet (Microservice.ready ⟨fun _ => none, ⟨0⟩⟩) (str "status") =
      some (.string (str "ready")) :=
  (C7_readiness_is_hardcoded ⟨fun _ => [], fun _ => none⟩ ⟨fun _ => none, ⟨0⟩⟩
    ⟨fun _ => none, ⟨1⟩⟩ ResponseWriter.fresh ⟨str "GET", str "/ready", []⟩
    ⟨str "GET", str "/ready", []⟩).1

/-- C6 as stated fails: two runs of the CLI tool with the same link-time
variables and runtime constants, at clock readings that differ, build
`Status` records that differ (in `Timestamp`). -/
theorem C6_timestamp_counterexample :
    (⟨CliTool.devBuild (str "go1.21.0") (str "linux") (str "amd64"), ⟨0⟩, []⟩ :
        CliTool.World).build =
      (⟨CliTool.devBuild (str "go1.21.0") (str "linux") (str "amd64"), ⟨1⟩, []⟩ :
        CliTool.World).build ∧
    CliTool.status ⟨CliTool.devBuild (str "go1.21.0") (str "linux") (str "amd64"), ⟨0⟩, []⟩ ≠
      CliTool.status ⟨CliTool.devBuild (str "go1.21.0") (str "linux") (str "amd64"), ⟨1⟩, []⟩ := by
  refine ⟨rfl, ?_⟩
  intro h
  have h1 := congrArg (fun s => s.Timestamp.unixNano) h
  revert h1
  decide

theorem Microservice.getVersion_congr (e1 e2 : Environ)
    (h : e1 (str "VERSION") = e2 (str "VERSION")) :
    Microservice.getVersion e1 = Microservice.getVersion e2 := by
  simp only [Microservice.getVersion, Getenv, h]

theorem Microservice.getEnvironment_congr (e1 e2 : Environ)
    (h : e1 (str "ENVIRONMENT") = e2 (str "ENVIRONMENT")) :
    Microservice.getEnvironment e1 = Microservice.getEnvironment e2 := by
  simp only [Microservice.getEnvironment, Getenv, h]

/-- C6 (amended): every output record is determined by the environment
variables, the compile-time constants and the clock reading at its
construction. Each record holds exactly the fields listed here: literals of
the source, the link-time variables and runtime constants, the results of
`getVersion` and `getEnvironment`, and the reading of `time.Now()` (for the
demo payload its RFC 3339 text); these records are what the programs
encode, whatever the response writer and the request. For two constructions
of the same kind under the same constants and environments that agree on
`VERSION` and `ENVIRONMENT`, possibly in processes whose time zones differ:
the CLI's `BuildInfo` and the microservice's info and service-info payloads
are equal in every field; the CLI's `Status` and demo payload and the
microservice's health and readiness payloads are equal in every field other
than the timestamp; the timestamps of `Status`, health and readiness are
equal as well when the two clock readings are equal, and that of the demo
payload when the two formatted texts are equal. -/
theorem C6_records_determined_up_to_clock (lib1 lib2 : TimeLib) (c1 c2 : CliTool.World)
    (m1 m2 : Microservice.World) (w : ResponseWriter) (r : Request)
    (hb : c1.build = c2.build)
    (hv : m1.env (str "VERSION") = m2.env (str "VERSION"))
    (he : m1.env (str "ENVIRONMENT") = m2.env (str "ENVIRONMENT")) :
    -- what each record holds, field by field
    (CliTool.buildInfo c1.build =
        { Version := c1.build.version, Commit := c1.build.commit, BuildDate := c1.build.date,
          GoVersion := c1.build.goVersion,
          Platform := c1.build.GOOS ++ str "/" ++ c1.build.GOARCH } ∧
      CliTool.status c1 =
        { Status := str "running", Timestamp := c1.now,
          Build :=
            { Version := c1.build.version, Commit := c1.build.commit,
              BuildDate := c1.build.date, GoVersion := c1.build.goVersion,
              Platform := c1.build.GOOS ++ str "/" ++ c1.build.GOARCH } } ∧
      CliTool.demoPayload lib1 c1 =
        [(str "message",
            .string (str "Welcome to the GitHub Actions Multi-Platform Release Demo! 🚀")),
          (str "description",
            .string (str "This CLI tool showcases automated cross-platform builds and releases")),
          (str "features", .strings
            [str "Cross-platform compilation", str "Automated releases",
              str "GitHub CLI integration", str "Docker multi-arch images",
              str "Package signing", str "SBOM generation"]),
          (str "platforms", .strings
            [str "linux/amd64", str "linux/arm64", str "darwin/amd64", str "darwin/arm64",
              str "windows/amd64"]),
          (str "workflow", .string (str "02-multi-platform-release.yml")),
          (str "build_info", .stringMap
            [(str "version", c1.build.version), (str "commit", c1.build.commit),
              (str "platform", c1.build.GOOS ++ str "/" ++ c1.build.GOARCH),
              (str "go_version", c1.build.goVersion)]),
          (str "timestamp", .string (lib1.formatRFC3339 c1.now))] ∧
      Microservice.health m1 =
        { Status := str "healthy", Timestamp := m1.now,
          Version := Microservice.getVersion m1.env, Service := str "secure-microservice" } ∧
      Microservice.ready m1 =
        [(str "status", .string (str "ready")), (str "timestamp", .time m1.now),
          (str "checks", .stringMap
            [(str "database", str "connected"), (str "external_apis", str "available"),
              (str "cache", str "healthy")])] ∧
      Microservice.info m1 =
        [(str "service", .string (str "secure-microservice")),
          (str "version", .string (Microservice.getVersion m1.env)),
          (str "environment", .string (Microservice.getEnvironment m1.env)),
          (str "golang", .string (str "1.21")),
          (str "security_features", .strings
            [str "HTTPS only", str "CORS protection", str "Input validation",
              str "Rate limiting", str "Security headers"]),
          (str "compliance", .strings [str "SOC 2", str "GDPR", str "HIPAA ready"])] ∧
      Microservice.serviceInfo m1 =
        { Name := str "GitHub Actions Security Demo",
          Version := Microservice.getVersion m1.env,
          Environment := Microservice.getEnvironment m1.env,
          Security :=
            [(str "code_scanning", str "CodeQL enabled"),
              (str "dependency_scanning", str "Trivy + npm audit"),
              (str "container_scanning", str "Trivy container scan"),
              (str "secret_scanning", str "TruffleHog"),
              (str "policy_validation", str "OPA policies"),
              (str "image_signing", str "Cosign"),
              (str "sbom_generation", str "Syft")],
          Features :=
            [str "OIDC authentication", str "Multi-stage Docker builds",
              str "Non-root containers", str "Resource limits", str "Health checks",
              str "Readiness probes", str "Security policies"] }) ∧
    -- these records are what the programs encode, whatever the writer and the request
    (CliTool.versionBlock c1 true = CliTool.printJSON (some (CliTool.buildInfo c1.build).toJSON) ∧
      CliTool.statusBlock lib1 c1 true = CliTool.printJSON ((CliTool.status c1).toJSON lib1) ∧
      CliTool.runDemo lib1 c1 true =
        CliTool.printJSON ((CliTool.demoPayload lib1 c1).toJSON lib1) ∧
      Microservice.healthHandler lib1 m1 w r =
        Encode (w.setHeader (str "Content-Type") (str "application/json"))
          ((Microservice.health m1).toJSON lib1) ∧
      Microservice.readinessHandler lib1 m1 w r =
        Encode (w.setHeader (str "Content-Type") (str "application/json"))
          ((Microservice.ready m1).toJSON lib1) ∧
      Microservice.infoHandler lib1 m1 w r =
        Encode (w.setHeader (str "Content-Type") (str "application/json"))
          ((Microservice.info m1).toJSON lib1) ∧
      Microservice.serviceInfoHandler lib1 m1 w r =
        Encode (w.setHeader (str "Content-Type") (str "application/json"))
          (some (Microservice.serviceInfo m1).toJSON)) ∧
    -- two constructions
    (CliTool.buildInfo c1.build = CliTool.buildInfo c2.build ∧
      Microservice.info m1 = Microservice.info m2 ∧
      Microservice.serviceInfo m1 = Microservice.serviceInfo m2 ∧
      CliTool.status c1 = { CliTool.status c2 with Timestamp := c1.now } ∧
      Microservice.health m1 = { Microservice.health m2 with Timestamp := m1.now } ∧
      withoutTimestamp (CliTool.demoPayload lib1 c1) =
        withoutTimestamp (CliTool.demoPayload lib2 c2) ∧
      withoutTimestamp (Microservice.ready m1) = withoutTimestamp (Microservice.ready m2) ∧
      (c1.now = c2.now → CliTool.status c1 = CliTool.status c2) ∧
      (lib1.formatRFC3339 c1.now = lib2.formatRFC3339 c2.now →
        CliTool.demoPayload lib1 c1 = CliTool.demoPayload lib2 c2) ∧
      (m1.now = m2.now →
        Microservice.health m1 = Microservice.health m2 ∧
          Microservice.ready m1 = Microservice.ready m2)) := by
  have hgv := Microservice.getVersion_congr m1.env m2.env hv
  have hge := Microservice.getEnvironment_congr m1.env m2.env he
  refine ⟨⟨?_, ?_, ?_, rfl, rfl, rfl, rfl⟩, ⟨rfl, rfl, rfl, rfl, rfl, rfl, rfl⟩,
    ⟨?_, ?_, ?_, ?_, ?_, ?_, rfl, ?_, ?_, ?_⟩⟩
  · simp [CliTool.buildInfo]
  · simp [CliTool.status, CliTool.buildInfo]
  · simp [CliTool.demoPayload, CliTool.features, CliTool.platforms]
  · rw [hb]
  · simp only [Microservice.info, hgv, hge]
  · simp only [Microservice.serviceInfo, hgv, hge]
  · simp only [CliTool.status, hb]
  · simp only [Microservice.health, hgv]
  · obtain ⟨b1, n1, d1⟩ := c1
    obtain ⟨b2, n2, d2⟩ := c2
    simp only at hb
    subst hb
    rfl
  · intro h
    simp only [CliTool.status, hb, h]
  · intro h
    simp only [CliTool.demoPayload, hb, h]
  · intro h
    exact ⟨by simp only [Microservice.health, hgv, h], by simp only [Microservice.ready, h]⟩

/-- C6 (amended) at two runs one nanosecond apart, in time zones rendered
differently and in environments that differ in `PORT` only. -/
theorem C6_records_witness :
    CliTool.status ⟨CliTool.devBuild (str "go1.21.0") (str "linux") (str "amd64"), ⟨0⟩, []⟩ =
      { CliTool.status ⟨CliTool.devBuild (str "go1.21.0") (str "linux") (str "amd64"), ⟨1⟩, []⟩
        with Timestamp := ⟨0⟩ } ∧
    Microservice.info ⟨fun _ => none, ⟨0⟩⟩ =
      Microservice.info ⟨fun k => if k = str "PORT" then some (str "9090") else none, ⟨1⟩⟩ :=
  ⟨(C6_records_determined_up_to_clock ⟨fun _ => str "Z", fun _ => none⟩
      ⟨fun _ => str "+02:00", fun _ => none⟩
      ⟨CliTool.devBuild (str "go1.21.0") (str "linux") (str "amd64"), ⟨0⟩, []⟩
      ⟨CliTool.devBuild (str "go1.21.0") (str "linux") (str "amd64"), ⟨1⟩, []⟩
      ⟨fun _ => none, ⟨0⟩⟩
      ⟨fun k => if k = str "PORT" then some (str "9090") else none, ⟨1⟩⟩
      ResponseWriter.fresh ⟨str "GET", str "/health", []⟩ rfl (by decide) (by decide)).2.2.2.2.2.1,
    (C6_records_determined_up_to_clock ⟨fun _ => str "Z", fun _ => none⟩
      ⟨fun _ => str "+02:00", fun _ => none⟩
      ⟨CliTool.devBuild (str "go1.21.0") (str "linux") (str "amd64"), ⟨0⟩, []⟩
      ⟨CliTool.devBuild (str "go1.21.0") (str "linux") (str "amd64"), ⟨1⟩, []⟩
      ⟨fun _ => none, ⟨0⟩⟩
      ⟨fun k => if k = str "PORT" then some (str "9090") else none, ⟨1⟩⟩
      ResponseWriter.fresh ⟨str "GET", str "/health", []⟩ rfl (by decide) (by decide)).2.2.2.1⟩

/-! ## The CLI modes -/

theorem CliTool.versionJSON_prefix (w : CliTool.World) :
    (CliTool.versionBlock w true).stdout.take 6 = [0x7B, 0x0A, 0x20, 0x20, 0x22, 0x76] := by
  rfl

theorem CliTool.statusJSON_prefix (lib : TimeLib) (w : CliTool.World) :
    (CliTool.statusBlock lib w true).stdout.take 6 = [0x0A] ∨
    (CliTool.statusBlock lib w true).stdout.take 6 = [0x7B, 0x0A, 0x20, 0x20, 0x22, 0x73] := by
  unfold CliTool.statusBlock CliTool.Status.toJSON
  cases h : lib.marshalJSON (CliTool.status w).Timestamp with
  | none => left; simp [h]; rfl
  | some t => right; simp [h]; rfl

theorem CliTool.demoJSON_prefix (lib : TimeLib) (w : CliTool.World) :
    (CliTool.runDemo lib w true).stdout.take 6 = [0x7B, 0x0A, 0x20, 0x20, 0x22, 0x62] := by
  rfl

theorem CliTool.help_prefix (w : CliTool.World) :
    (CliTool.helpBlock w).stdout.take 29 = str "GitHub Actions Demo CLI Tool " := by
  rfl

theorem CliTool.versionText_prefix (w : CliTool.World) :
    (CliTool.versionBlock w false).stdout.take 29 = str "GitHub Actions Demo CLI Tool\n" := by
  rfl

theorem CliTool.statusText_prefix (lib : TimeLib) (w : CliTool.World) :
    (CliTool.statusBlock lib w false).stdout.take 6 = str "Status" := by
  rfl

theorem CliTool.demoText_prefix (lib : TimeLib) (w : CliTool.World) :
    (CliTool.runDemo lib w false).stdout.take 6 = [0xF0, 0x9F, 0x9A, 0x80, 0x20, 0x47] := by
  rfl

theorem CliTool.help_prefix6 (w : CliTool.World) :
    (CliTool.helpBlock w).stdout.take 6 = str "GitHub" := by
  rfl

theorem CliTool.versionText_prefix6 (w : CliTool.World) :
    (CliTool.versionBlock w false).stdout.take 6 = str "GitHub" := by
  rfl

theorem CliTool.Block.output_injective (lib : TimeLib) (w : CliTool.World) (json : Bool)
    (b1 b2 : CliTool.Block) (h : b1.output lib w json = b2.output lib w json) : b1 = b2 := by
  have h6 := congrArg (fun o => o.stdout.take 6) h
  have h29 := congrArg (fun o => o.stdout.take 29) h
  rcases CliTool.statusJSON_prefix lib w with hs | hs <;>
  cases json <;> cases b1 <;> cases b2 <;> first
    | rfl
    | (exfalso
       simp only [CliTool.Block.output, CliTool.versionJSON_prefix, CliTool.demoJSON_prefix,
         CliTool.help_prefix, CliTool.versionText_prefix, CliTool.statusText_prefix,
         CliTool.demoText_prefix, CliTool.help_prefix6, CliTool.versionText_prefix6,
         hs] at h6 h29
       first
         | exact absurd h6 (by decide)
         | exact absurd h29 (by decide))

theorem CliTool.Block.output_ne_nil (lib : TimeLib) (w : CliTool.World) (json : Bool)
    (b : CliTool.Block) : (b.output lib w json).stdout ≠ [] := by
  intro h
  have h6 := congrArg (List.take 6) h
  rcases CliTool.statusJSON_prefix lib w with hs | hs <;>
  cases json <;> cases b <;>
  simp only [CliTool.Block.output, CliTool.versionJSON_prefix, CliTool.demoJSON_prefix,
         CliTool.statusText_prefix,
         CliTool.demoText_prefix, CliTool.help_prefix6, CliTool.versionText_prefix6,
         hs] at h6 <;>
  exact absurd h6 (by decide)

/-- C4: mode dispatch is first match wins with exactly one output block:
for every combination of the four flags, what `main` writes is the output
of the block selected by `--version`, else `--status`, else `--demo`, else
help; it is the output of no other block, and it is not empty. -/
theorem C4_exactly_one_block (lib : TimeLib) (w : CliTool.World) (f : CliTool.Flags) :
    CliTool.main lib w f = (CliTool.selected f).output lib w f.outputJSON ∧
    (∀ b : CliTool.Block,
      CliTool.main lib w f = b.output lib w f.outputJSON → b = CliTool.selected f) ∧
    (CliTool.main lib w f).stdout ≠ [] := by
  have hm : CliTool.main lib w f = (CliTool.selected f).output lib w f.outputJSON := by
    obtain ⟨v, s, j, d⟩ := f
    cases v <;> cases s <;> cases d <;> rfl
  refine ⟨hm, ?_, ?_⟩
  · intro b hb
    exact CliTool.Block.output_injective lib w f.outputJSON b _ (hb.symm.trans hm)
  · rw [hm]
    exact CliTool.Block.output_ne_nil lib w _ _

/-- C4 at `--version --status --demo`: the version block, and no other. -/
theorem C4_exactly_one_block_witness :
    CliTool.main ⟨fun _ => [], fun _ => none⟩
        ⟨CliTool.devBuild (str "go1.21.0") (str "linux") (str "amd64"), ⟨0⟩, []⟩
        ⟨true, true, false, true⟩ =
      CliTool.versionBlock
        ⟨CliTool.devBuild (str "go1.21.0") (str "linux") (str "amd64"), ⟨0⟩, []⟩ false :=
  (C4_exactly_one_block ⟨fun _ => [], fun _ => none⟩
    ⟨CliTool.devBuild (str "go1.21.0") (str "linux") (str "amd64"), ⟨0⟩, []⟩
    ⟨true, true, false, true⟩).1

theorem CliTool.demoPayload_toJSON (lib : TimeLib) (w : CliTool.World) :
    ∃ j, (CliTool.demoPayload lib w).toJSON lib = some j :=
  ⟨_, rfl⟩

/-- C10: the `--json` flag is a format modifier, not a mode. For every flag
combination the block `main` writes is the one selected with `--json`
cleared; when that block is help, the output is the same help text with and
without `--json`; when it is version, status or demo, `--json` set prints
the indented JSON encoding of the block's value followed by a line feed
(for status: what `json.MarshalIndent` returned, which is that encoding
whenever the timestamp's `MarshalJSON` succeeds), and `--json` unset prints
the block's text template. -/
theorem C10_json_is_a_format_modifier (lib : TimeLib) (w : CliTool.World) (f : CliTool.Flags) :
    CliTool.selected { f with outputJSON := true } =
      CliTool.selected { f with outputJSON := false } ∧
    CliTool.main lib w f =
      (CliTool.selected { f with outputJSON := false }).output lib w f.outputJSON ∧
    (CliTool.selected f = .help →
      CliTool.main lib w { f with outputJSON := true } = CliTool.helpBlock w ∧
      CliTool.main lib w { f with outputJSON := false } = CliTool.helpBlock w) ∧
    (CliTool.selected f = .version →
      CliTool.main lib w { f with outputJSON := true } =
        ⟨MarshalIndent (CliTool.buildInfo w.build).toJSON ++ str "\n", []⟩ ∧
      CliTool.main lib w { f with outputJSON := false } =
        ⟨CliTool.versionText (CliTool.buildInfo w.build), []⟩) ∧
    (CliTool.selected f = .status →
      CliTool.main lib w { f with outputJSON := true } =
        ⟨(((CliTool.status w).toJSON lib).map MarshalIndent).getD [] ++ str "\n", []⟩ ∧
      (∀ t, lib.marshalJSON w.now = some t →
        CliTool.main lib w { f with outputJSON := true } =
          ⟨MarshalIndent (.obj [(str "status", .str (str "running")), (str "timestamp", .raw t),
            (str "build", (CliTool.buildInfo w.build).toJSON)]) ++ str "\n", []⟩) ∧
      CliTool.main lib w { f with outputJSON := false } =
        ⟨CliTool.statusText lib (CliTool.status w), []⟩) ∧
    (CliTool.selected f = .demo →
      (∃ j, (CliTool.demoPayload lib w).toJSON lib = some j ∧
        CliTool.main lib w { f with outputJSON := true } =
          ⟨MarshalIndent j ++ str "\n", []⟩) ∧
      CliTool.main lib w { f with outputJSON := false } = ⟨CliTool.demoText w, []⟩) := by
  obtain ⟨j, hj⟩ := CliTool.demoPayload_toJSON lib w
  obtain ⟨v, s, j, d⟩ := f
  cases v <;> cases s <;> cases d <;> cases j <;>
    simp [CliTool.selected, CliTool.main, CliTool.Block.output, CliTool.versionBlock,
      CliTool.statusBlock, CliTool.runDemo, CliTool.printJSON, hj] <;>
    (intro t ht
     simp [CliTool.Status.toJSON, CliTool.status, ht])

/-- C10 at `--version`, with and without `--json`. -/
theorem C10_json_witness :
    CliTool.main ⟨fun _ => [], fun _ => none⟩
        ⟨CliTool.devBuild (str "go1.21.0") (str "linux") (str "amd64"), ⟨0⟩, []⟩
        ⟨true, false, true, false⟩ =
      ⟨MarshalIndent (CliTool.buildInfo
        (CliTool.devBuild (str "go1.21.0") (str "linux") (str "amd64"))).toJSON ++ str "\n", []⟩ :=
  ((C10_json_is_a_format_modifier ⟨fun _ => [], fun _ => none⟩
    ⟨CliTool.devBuild (str "go1.21.0") (str "linux") (str "amd64"), ⟨0⟩, []⟩
    ⟨true, false, false, false⟩).2.2.2.1 rfl).1

/-! ## The HTTP handlers -/

theorem Encode_after_setHeader (key value : GoString) (v : Option JSON) :
    (Encode (ResponseWriter.fresh.setHeader key value) v).finish.status = 200 ∧
    (Encode (ResponseWriter.fresh.setHeader key value) v).finish.header.values key =
      some [value] ∧
    ∃ rest, (Encode (ResponseWriter.fresh.setHeader key value) v).trace =
      Effect.setHeader key value :: rest := by
  cases v with
  | none =>
    simp [Encode, ResponseWriter.finish, ResponseWriter.WriteHeader, ResponseWriter.setHeader,
      ResponseWriter.fresh, Header.values, Header.set, mapGet]
  | some j =>
    simp [Encode, ResponseWriter.finish, ResponseWriter.WriteHeader, ResponseWriter.setHeader,
      ResponseWriter.Write, ResponseWriter.fresh, Header.values, Header.set, mapGet]

theorem Microservice.handler_eq_encode (lib : TimeLib) (world : Microservice.World)
    (w : ResponseWriter) (r : Request) (e : Microservice.Endpoint) :
    ∃ v : Option JSON, e.handler lib world w r =
      Encode (w.setHeader (str "Content-Type") (str "application/json")) v := by
  cases e
  · exact ⟨(Microservice.health world).toJSON lib, rfl⟩
  · exact ⟨(Microservice.ready world).toJSON lib, rfl⟩
  · exact ⟨(Microservice.info world).toJSON lib, rfl⟩
  · exact ⟨some (Microservice.serviceInfo world).toJSON, rfl⟩

theorem Microservice.router_eq :
    Microservice.router =
      [⟨str "/health", [str "GET"], .health⟩, ⟨str "/ready", [str "GET"], .readiness⟩,
        ⟨str "/info", [str "GET"], .info⟩, ⟨str "/api/v1/service", [str "GET"], .serviceInfo⟩] := by
  decide

/-- C5: each of the four handlers, for every request and every environment,
responds with status 200 and the response header `Content-Type` set to
exactly "application/json", and setting that header is the first thing it
does to the response writer, before any body byte is written; the router
holds exactly the four routes, each registered for the method GET only, so
that every request a route accepts gets such a response and no request with
another method is accepted. -/
theorem C5_handlers_respond_200_json (lib : TimeLib) (world : Microservice.World)
    (r : Request) :
    (∀ e : Microservice.Endpoint,
      (e.handler lib world ResponseWriter.fresh r).finish.status = 200 ∧
      (e.handler lib world ResponseWriter.fresh r).finish.header.values (str "Content-Type") =
        some [str "application/json"] ∧
      ∃ rest, (e.handler lib world ResponseWriter.fresh r).trace =
        Effect.setHeader (str "Content-Type") (str "application/json") :: rest) ∧
    Microservice.router =
      [⟨str "/health", [str "GET"], .health⟩, ⟨str "/ready", [str "GET"], .readiness⟩,
        ⟨str "/info", [str "GET"], .info⟩, ⟨str "/api/v1/service", [str "GET"], .serviceInfo⟩] ∧
    ((∃ rt ∈ Microservice.router, rt.accepts r = true) →
      (ServeHTTP Microservice.router lib world r).status = 200 ∧
      (ServeHTTP Microservice.router lib world r).header.values (str "Content-Type") =
        some [str "application/json"]) ∧
    (r.method ≠ str "GET" → ∀ rt ∈ Microservice.router, rt.accepts r = false) := by
  have ha : ∀ e : Microservice.Endpoint,
      (e.handler lib world ResponseWriter.fresh r).finish.status = 200 ∧
      (e.handler lib world ResponseWriter.fresh r).finish.header.values (str "Content-Type") =
        some [str "application/json"] ∧
      ∃ rest, (e.handler lib world ResponseWriter.fresh r).trace =
        Effect.setHeader (str "Content-Type") (str "application/json") :: rest := by
    intro e
    obtain ⟨v, hv⟩ := Microservice.handler_eq_encode lib world ResponseWriter.fresh r e
    rw [hv]
    exact Encode_after_setHeader _ _ v
  refine ⟨ha, Microservice.router_eq, ?_, ?_⟩
  · rintro ⟨rt, hrt, hacc⟩
    unfold ServeHTTP
    cases hf : Microservice.router.find? (fun rt => rt.accepts r) with
    | none =>
      have := List.find?_eq_none.mp hf rt hrt
      simp [hacc] at this
    | some rt1 => exact ⟨(ha rt1.endpoint).1, (ha rt1.endpoint).2.1⟩
  · intro hm rt hrt
    rw [Microservice.router_eq] at hrt
    simp only [List.mem_cons, List.mem_singleton, List.not_mem_nil, or_false] at hrt
    rcases hrt with h | h | h | h <;> subst h <;>
      simp [Route.accepts, hm]

/-- C5 at a GET request for `/health` in the empty environment. -/
theorem C5_handlers_witness :
    (ServeHTTP Microservice.router ⟨fun _ => [], fun _ => none⟩ ⟨fun _ => none, ⟨0⟩⟩
      ⟨str "GET", str "/health", []⟩).status = 200 :=
  ((C5_handlers_respond_200_json ⟨fun _ => [], fun _ => none⟩ ⟨fun _ => none, ⟨0⟩⟩
    ⟨str "GET", str "/health", []⟩).2.2.1
      ⟨⟨str "/health", [str "GET"], .health⟩, by decide, by decide⟩).1
